import Mathlib

/-!
Verification of the wire-protocols chat service (src/protocol.py, src/schemas.py,
src/server.py, src/database.py) against its natural-language specification.

Modelling conventions (shallow embedding):
* Byte strings are `List Nat` with entries standing for bytes; Python `str`
  values are modelled by their UTF-8 byte sequences (`List Nat`), so string
  encoding/decoding on the wire is the identity on those sequences.
* A Python `datetime` is modelled by the 64-bit pattern of the IEEE-754 double
  produced by `datetime.timestamp()` (a `Nat < 2^64`): `timestamp()` and
  `datetime.fromtimestamp` are inverse bijections on the values the program
  exchanges, so the wire-relevant content of a `datetime` is exactly that
  pattern.  For the JSON codec the ISO-8601 rendering of a `datetime` is
  modelled by a quoted decimal rendering of the same pattern (an injective
  textual rendering, which is all the round-trip facts use).
* Fallible Python code (struct.pack/unpack errors, ValueError, IndexError)
  is modelled with `Option`.
-/

namespace WireChat

/-- ASCII bytes of a string literal (all literals used are ASCII). -/
def asciiOf (s : String) : List Nat := s.data.map (fun c => c.toNat)

/-- Big-endian byte rendering of `v` in exactly `w` bytes
(Python `int.to_bytes(w, "big")` / `struct.pack`), assuming `v < 256 ^ w`. -/
def beBytes : Nat → Nat → List Nat
  | 0, _ => []
  | w + 1, v => beBytes w (v / 256) ++ [v % 256]

/-- Big-endian value of a byte list (Python `int.from_bytes(_, "big")` /
`struct.unpack`). -/
def fromBe (l : List Nat) : Nat := l.foldl (fun a b => a * 256 + b) 0

theorem beBytes_length (w v : Nat) : (beBytes w v).length = w := by
  induction w generalizing v with
  | zero => rfl
  | succ w ih => simp [beBytes, ih]

theorem fromBe_append (l₁ l₂ : List Nat) :
    fromBe (l₁ ++ l₂) = l₂.foldl (fun a b => a * 256 + b) (fromBe l₁) := by
  simp [fromBe, List.foldl_append]

theorem fromBe_beBytes (w v : Nat) (h : v < 256 ^ w) :
    fromBe (beBytes w v) = v := by
  induction w generalizing v with
  | zero =>
    simp [pow_zero] at h
    simp [beBytes, fromBe, h]
  | succ w ih =>
    have hdiv : v / 256 < 256 ^ w := by
      rw [Nat.div_lt_iff_lt_mul (by norm_num)]
      calc v < 256 ^ (w + 1) := h
        _ = 256 ^ w * 256 := by rw [pow_succ]
    rw [beBytes, fromBe_append, ih _ hdiv]
    simp [fromBe]
    omega

/-- Read exactly `n` bytes from the front of the buffer
(`struct.unpack_from` raises when fewer than `n` bytes remain). -/
def readN (n : Nat) (b : List Nat) : Option (List Nat × List Nat) :=
  if n ≤ b.length then some (b.take n, b.drop n) else none

theorem readN_append (a r : List Nat) : readN a.length (a ++ r) = some (a, r) := by
  simp [readN, List.take_left, List.drop_left]

/-- Read an `n`-byte big-endian unsigned integer from the front of the buffer. -/
def readBe (n : Nat) (b : List Nat) : Option (Nat × List Nat) :=
  (readN n b).map (fun p => (fromBe p.1, p.2))

theorem readBe_append (w v : Nat) (r : List Nat) (h : v < 256 ^ w) :
    readBe w (beBytes w v ++ r) = some (v, r) := by
  have hr := readN_append (beBytes w v) r
  rw [beBytes_length] at hr
  rw [readBe, hr]
  simp [fromBe_beBytes w v h]

/-! ## Data model (src/schemas.py) -/

/-- `MessageType` enum of src/schemas.py, in declaration order. -/
inductive MessageType where
  | SERVER_RESPONSE
  | LOGIN
  | LOGOUT
  | JOIN
  | REGISTER
  | CHAT
  | DM
  | FETCH
  | MARK_READ
  | DELETE
  | DELETE_NOTIFICATION
  | DELETE_ACCOUNT
deriving DecidableEq, Repr

/-- The string value of each `MessageType` member (as UTF-8 bytes). -/
def MessageType.value : MessageType → List Nat
  | .SERVER_RESPONSE => asciiOf "server_response"
  | .LOGIN => asciiOf "login"
  | .LOGOUT => asciiOf "logout"
  | .JOIN => asciiOf "join"
  | .REGISTER => asciiOf "register"
  | .CHAT => asciiOf "chat"
  | .DM => asciiOf "dm"
  | .FETCH => asciiOf "fetch"
  | .MARK_READ => asciiOf "mark_read"
  | .DELETE => asciiOf "delete"
  | .DELETE_NOTIFICATION => asciiOf "delete_notification"
  | .DELETE_ACCOUNT => asciiOf "delete_account"

/-- Enum members in declaration order (Python `enumerate(MessageType)`). -/
def msgTypeList : List MessageType :=
  [.SERVER_RESPONSE, .LOGIN, .LOGOUT, .JOIN, .REGISTER, .CHAT,
   .DM, .FETCH, .MARK_READ, .DELETE, .DELETE_NOTIFICATION, .DELETE_ACCOUNT]

/-- `CustomWireProtocol.MESSAGE_TYPES`: message-type value → header byte,
built by enumerating the enum in order. -/
def msgTypeIndexOfKey (key : List Nat) : Option Nat :=
  (msgTypeList.enum.find? (fun p => p.2.value = key)).map (fun p => p.1)

/-- `CustomWireProtocol.REVERSE_MESSAGE_TYPES`: header byte → message type. -/
def msgTypeOfByte (b : Nat) : Option MessageType :=
  (msgTypeList.enum.find? (fun p => p.1 = b)).map (fun p => p.2)

/-- Kind-byte selection in `serialize_message`: an unknown type key falls back
to the `chat` entry of `MESSAGE_TYPES`. -/
def headerByteForKey (key : List Nat) : Nat :=
  match msgTypeIndexOfKey key with
  | some i => i
  | none => (msgTypeIndexOfKey MessageType.CHAT.value).getD 0

/-- `Status` enum of src/schemas.py. -/
inductive Status where
  | SUCCESS
  | ERROR
deriving DecidableEq, Repr

/-- `ChatMessage` of src/schemas.py; field names and order as in the source.
Strings are UTF-8 byte sequences, the timestamp is the 64-bit double pattern. -/
structure ChatMessage where
  username : List Nat
  content : List Nat
  timestamp : Nat
  message_type : MessageType
  recipients : Option (List (List Nat)) := none
  message_id : Option Nat := none
  fetch_count : Option Nat := none
  message_ids : Option (List Nat) := none
  password : Option (List Nat) := none
  active_users : Option (List (List Nat)) := none
  unread_count : Option Nat := none
deriving DecidableEq, Repr

/-- `ServerResponse` of src/schemas.py. -/
structure ServerResponse where
  status : Status
  message : List Nat
  data : Option ChatMessage := none
  unread_count : Option Nat := none
deriving DecidableEq, Repr

/-! ## Binary codec (`CustomWireProtocol`, src/protocol.py) -/

/-- `struct.pack("!B", n)`: one byte; raises (`none`) when `n ≥ 256`. -/
def packB (n : Nat) : Option (List Nat) :=
  if n < 256 then some [n] else none

/-- `struct.pack("!I", n)` / `int.to_bytes(4, "big")`: 4 bytes big-endian;
raises when `n ≥ 2^32`. -/
def packI (n : Nat) : Option (List Nat) :=
  if n < 4294967296 then some (beBytes 4 n) else none

/-- `struct.pack("!d", ts)`: the 8 bytes of the IEEE-754 double, modelled as
the big-endian rendering of the 64-bit pattern. -/
def packD (n : Nat) : Option (List Nat) :=
  if n < 18446744073709551616 then some (beBytes 8 n) else none

/-- `CustomWireProtocol.serialize_string`: `[4-byte length][UTF-8 bytes]`. -/
def serializeString (s : List Nat) : Option (List Nat) :=
  (packI s.length).map (· ++ s)

/-- Serialization of a list of strings, one after the other (the loops over
`recipients` and `active_users` in `serialize_message`). -/
def serializeStringList : List (List Nat) → Option (List Nat)
  | [] => some []
  | s :: t => do
    let hd ← serializeString s
    let tl ← serializeStringList t
    pure (hd ++ tl)

/-- `CustomWireProtocol.serialize_message`.  Returns `none` where the Python
raises (`ValueError` on content over 1MB, `struct.error`/`OverflowError` on a
count or length that does not fit its fixed-width field).  The nine payload
sections are packed independently and concatenated in source order. -/
def cwpSerializeMessage (m : ChatMessage) : Option (List Nat) :=
  if 1000000 < m.content.length then none else
  match packI (m.message_id.getD 0), serializeString m.username,
    serializeString m.content, packD m.timestamp,
    packB (m.recipients.getD []).length, serializeStringList (m.recipients.getD []),
    packI (m.fetch_count.getD 0), serializeString (m.password.getD []),
    packB (m.active_users.getD []).length, serializeStringList (m.active_users.getD []),
    packI (m.unread_count.getD 0) with
  | some pid, some pu, some pc, some pts, some prc, some precs, some pfc,
    some ppw, some pac, some pacts, some pun =>
    let payload := pid ++ pu ++ pc ++ pts ++ prc ++ precs ++ pfc ++ ppw ++ pac ++ pacts ++ pun
    match packI payload.length with
    | some plen => some (headerByteForKey m.message_type.value :: (plen ++ payload))
    | none => none
  | _, _, _, _, _, _, _, _, _, _, _ => none

/-- `CustomWireProtocol.deserialize_string`: 4-byte length, then that many
bytes.  (A short buffer makes the Python `deserialize_message` fail at the
latest on its next fixed-width `unpack_from`; the model fails directly here,
so the success domains and results of `deserialize_message` agree.) -/
def deserializeString (b : List Nat) : Option (List Nat × List Nat) := do
  let (n, b) ← readBe 4 b
  readN n b

/-- The deserialization loops over `recipients` / `active_users`. -/
def deserializeStrings : Nat → List Nat → Option (List (List Nat) × List Nat)
  | 0, b => some ([], b)
  | n + 1, b => do
    let (s, b) ← deserializeString b
    let (t, b) ← deserializeStrings n b
    pure (s :: t, b)

/-- `CustomWireProtocol.deserialize_message`.  The header byte is mapped
through `REVERSE_MESSAGE_TYPES` with `chat` as default; bytes 1–4 (the length
field) are skipped unread; sentinel values (0, empty string, empty list)
become `None`. -/
def cwpDeserializeMessage (data : List Nat) : Option ChatMessage :=
  match data.head? with
  | none => none
  | some hb =>
  match readBe 4 (data.drop 5) with
  | none => none
  | some (msg_id, b) =>
  match deserializeString b with
  | none => none
  | some (username, b) =>
  match deserializeString b with
  | none => none
  | some (content, b) =>
  match readBe 8 b with
  | none => none
  | some (ts, b) =>
  match readBe 1 b with
  | none => none
  | some (rc, b) =>
  match deserializeStrings rc b with
  | none => none
  | some (recipients, b) =>
  match readBe 4 b with
  | none => none
  | some (fetch_count, b) =>
  match deserializeString b with
  | none => none
  | some (password, b) =>
  match readBe 1 b with
  | none => none
  | some (ac, b) =>
  match deserializeStrings ac b with
  | none => none
  | some (active_users, b) =>
  match readBe 4 b with
  | none => none
  | some (unread, _) =>
    some { username := username
           content := content
           timestamp := ts
           message_type := (msgTypeOfByte hb).getD .CHAT
           recipients := if recipients = [] then none else some recipients
           message_id := if msg_id = 0 then none else some msg_id
           fetch_count := if fetch_count = 0 then none else some fetch_count
           message_ids := none
           password := if password = [] then none else some password
           active_users := if active_users = [] then none else some active_users
           unread_count := if unread = 0 then none else some unread }

/-- `CustomWireProtocol.extract_message`: needs 5 bytes; an invalid kind byte
skips one byte; an oversized length field skips the 5-byte header; otherwise
waits for `5 + N` bytes and emits the complete frame. -/
def cwpExtractMessage (buffer : List Nat) : Option (List Nat) × List Nat :=
  if buffer.length < 5 then (none, buffer)
  else
    let msg_type := buffer.headI
    if (msgTypeOfByte msg_type).isNone then (none, buffer.drop 1)
    else
      let payload_length := fromBe ((buffer.drop 1).take 4)
      if 1000000 < payload_length then (none, buffer.drop 5)
      else
        let total := 5 + payload_length
        if buffer.length < total then (none, buffer)
        else (some (buffer.take total), buffer.drop total)

/-- The server's inner extraction loop (`handle_client`): keep extracting
frames from the buffer until the extractor yields no frame; the buffer the
extractor returned (possibly with skipped bytes) is retained. -/
def cwpExtractAll : Nat → List Nat → List (List Nat) × List Nat
  | 0, b => ([], b)
  | fuel + 1, b =>
    match cwpExtractMessage b with
    | (none, b') => ([], b')
    | (some f, b') =>
      let (fs, r) := cwpExtractAll fuel b'
      (f :: fs, r)

/-- Run the extraction loop with enough fuel to exhaust the buffer. -/
def cwpDrain (b : List Nat) : List (List Nat) × List Nat :=
  cwpExtractAll (b.length + 1) b

/-! ## Binary round-trip lemmas -/

/-- The bytes `serialize_string` produces for each string of a list, one after
the other. -/
def strListBytes (l : List (List Nat)) : List Nat :=
  (l.map (fun s => beBytes 4 s.length ++ s)).flatten

/-- The payload bytes of `serialize_message`, as a total function of the
message (fields in the order the source writes them). -/
def cwpPayload (m : ChatMessage) : List Nat :=
  beBytes 4 (m.message_id.getD 0) ++
  beBytes 4 m.username.length ++ m.username ++
  beBytes 4 m.content.length ++ m.content ++
  beBytes 8 m.timestamp ++
  [(m.recipients.getD []).length] ++
  strListBytes (m.recipients.getD []) ++
  beBytes 4 (m.fetch_count.getD 0) ++
  beBytes 4 (m.password.getD []).length ++ m.password.getD [] ++
  [(m.active_users.getD []).length] ++
  strListBytes (m.active_users.getD []) ++
  beBytes 4 (m.unread_count.getD 0)

theorem serializeString_eq (s : List Nat) (h : s.length < 4294967296) :
    serializeString s = some (beBytes 4 s.length ++ s) := by
  simp [serializeString, packI, h]

theorem serializeStringList_eq (l : List (List Nat))
    (h : ∀ s ∈ l, s.length < 4294967296) :
    serializeStringList l = some (strListBytes l) := by
  induction l with
  | nil => rfl
  | cons s t ih =>
    have hs : s.length < 4294967296 := h s (by simp)
    have ht : ∀ x ∈ t, x.length < 4294967296 := fun x hx => h x (by simp [hx])
    simp [serializeStringList, serializeString_eq s hs, ih ht, strListBytes]

theorem deserializeString_append (s r : List Nat) (h : s.length < 4294967296) :
    deserializeString (beBytes 4 s.length ++ (s ++ r)) = some (s, r) := by
  have h4 : s.length < 256 ^ 4 := by norm_num at h ⊢; omega
  simp [deserializeString, readBe_append 4 s.length (s ++ r) h4, readN_append]

theorem deserializeStrings_append (l : List (List Nat)) (r : List Nat)
    (h : ∀ s ∈ l, s.length < 4294967296) :
    deserializeStrings l.length (strListBytes l ++ r) = some (l, r) := by
  induction l with
  | nil => simp [deserializeStrings, strListBytes]
  | cons s t ih =>
    have hs : s.length < 4294967296 := h s (by simp)
    have ht : ∀ x ∈ t, x.length < 4294967296 := fun x hx => h x (by simp [hx])
    have hstep : deserializeString (beBytes 4 s.length ++ (s ++ (strListBytes t ++ r)))
        = some (s, strListBytes t ++ r) := deserializeString_append s _ hs
    calc deserializeStrings (s :: t).length (strListBytes (s :: t) ++ r)
        = deserializeStrings (t.length + 1)
            (beBytes 4 s.length ++ (s ++ (strListBytes t ++ r))) := by
          simp [strListBytes, List.append_assoc]
      _ = some (s :: t, r) := by
          simp only [deserializeStrings]
          rw [hstep]
          simp [ih ht]

theorem msgTypeOfByte_headerByte (mt : MessageType) :
    msgTypeOfByte (headerByteForKey mt.value) = some mt := by
  cases mt <;> rfl

/-- Bounds under which every fixed-width pack in `serialize_message`
succeeds (the "well-formed request" space of the binary codec). -/
def CwpSerializable (m : ChatMessage) : Prop :=
  m.content.length ≤ 1000000 ∧
  m.message_id.getD 0 < 4294967296 ∧
  m.username.length < 4294967296 ∧
  m.timestamp < 18446744073709551616 ∧
  (m.recipients.getD []).length < 256 ∧
  (∀ s ∈ m.recipients.getD [], s.length < 4294967296) ∧
  m.fetch_count.getD 0 < 4294967296 ∧
  (m.password.getD []).length < 4294967296 ∧
  (m.active_users.getD []).length < 256 ∧
  (∀ s ∈ m.active_users.getD [], s.length < 4294967296) ∧
  m.unread_count.getD 0 < 4294967296 ∧
  (cwpPayload m).length < 4294967296

theorem cwpSerializeMessage_eq (m : ChatMessage) (h : CwpSerializable m) :
    cwpSerializeMessage m =
      some (headerByteForKey m.message_type.value ::
        (beBytes 4 (cwpPayload m).length ++ cwpPayload m)) := by
  obtain ⟨hc, hid, hu, hts, hrc, hrs, hfc, hpw, hac, has, hun, hpl⟩ := h
  have hcl : m.content.length < 4294967296 := by omega
  have hpl' : (beBytes 4 (m.message_id.getD 0) ++
      (beBytes 4 m.username.length ++ m.username) ++
      (beBytes 4 m.content.length ++ m.content) ++
      beBytes 8 m.timestamp ++
      [(m.recipients.getD []).length] ++
      strListBytes (m.recipients.getD []) ++
      beBytes 4 (m.fetch_count.getD 0) ++
      (beBytes 4 (m.password.getD []).length ++ m.password.getD []) ++
      [(m.active_users.getD []).length] ++
      strListBytes (m.active_users.getD []) ++
      beBytes 4 (m.unread_count.getD 0)) = cwpPayload m := by
    simp [cwpPayload, List.append_assoc]
  rw [cwpSerializeMessage, if_neg (by omega)]
  simp only [packI, packB, packD, serializeString_eq _ hu, serializeString_eq _ hcl,
    serializeString_eq _ hpw, serializeStringList_eq _ hrs, serializeStringList_eq _ has,
    if_pos hid, if_pos hts, if_pos hrc, if_pos hfc, if_pos hac, if_pos hun]
  rw [hpl', if_pos hpl]

theorem readBe_append4 (v : Nat) (r : List Nat) (h : v < 4294967296) :
    readBe 4 (beBytes 4 v ++ r) = some (v, r) := by
  have h' : v < 256 ^ 4 := by norm_num; omega
  exact readBe_append 4 v r h'

theorem readBe_append8 (v : Nat) (r : List Nat) (h : v < 18446744073709551616) :
    readBe 8 (beBytes 8 v ++ r) = some (v, r) := by
  have h' : v < 256 ^ 8 := by norm_num; omega
  exact readBe_append 8 v r h'

theorem readBe_one (x : Nat) (r : List Nat) : readBe 1 (x :: r) = some (x, r) := by
  simp [readBe, readN, fromBe]

theorem readBe_final (v : Nat) (h : v < 4294967296) :
    readBe 4 (beBytes 4 v) = some (v, []) := by
  simpa using readBe_append4 v [] h

/-- Sentinel-freedom: no optional field carries the wire sentinel (0 / empty
string / empty list), and `message_ids` is absent (the binary payload has no
slot for it). -/
def CwpFaithful (m : ChatMessage) : Prop :=
  m.message_id ≠ some 0 ∧
  m.recipients ≠ some [] ∧
  m.fetch_count ≠ some 0 ∧
  m.password ≠ some [] ∧
  m.active_users ≠ some [] ∧
  m.unread_count ≠ some 0 ∧
  m.message_ids = none

theorem cwpDeserialize_serialize (m : ChatMessage) (hs : CwpSerializable m)
    (hf : CwpFaithful m) :
    cwpDeserializeMessage (headerByteForKey m.message_type.value ::
      (beBytes 4 (cwpPayload m).length ++ cwpPayload m)) = some m := by
  obtain ⟨hc, hid32, hu32, hts64, hrc256, hrs32, hfc32, hpw32, hac256, has32, hun32, hpl32⟩ := hs
  obtain ⟨hid, hrec, hfc, hpw, hau, hun, hmi⟩ := hf
  have hdrop : (headerByteForKey m.message_type.value ::
      (beBytes 4 (cwpPayload m).length ++ cwpPayload m)).drop 5 = cwpPayload m := by
    have hl := beBytes_length 4 (cwpPayload m).length
    rw [List.drop_succ_cons, List.drop_left' hl]
  have hflat : cwpPayload m =
      beBytes 4 (m.message_id.getD 0) ++
      (beBytes 4 m.username.length ++
      (m.username ++
      (beBytes 4 m.content.length ++
      (m.content ++
      (beBytes 8 m.timestamp ++
      ((m.recipients.getD []).length ::
      (strListBytes (m.recipients.getD []) ++
      (beBytes 4 (m.fetch_count.getD 0) ++
      (beBytes 4 (m.password.getD []).length ++
      (m.password.getD [] ++
      ((m.active_users.getD []).length ::
      (strListBytes (m.active_users.getD []) ++
      beBytes 4 (m.unread_count.getD 0))))))))))))) := by
    simp [cwpPayload, List.append_assoc]
  have hdropFlat := hdrop.trans hflat
  have hcl : m.content.length < 4294967296 := by omega
  have r1 : ∀ r, readBe 4 (beBytes 4 (m.message_id.getD 0) ++ r)
      = some (m.message_id.getD 0, r) := fun r => readBe_append4 _ r hid32
  have r2 : ∀ r, deserializeString (beBytes 4 m.username.length ++ (m.username ++ r))
      = some (m.username, r) := fun r => deserializeString_append _ r hu32
  have r3 : ∀ r, deserializeString (beBytes 4 m.content.length ++ (m.content ++ r))
      = some (m.content, r) := fun r => deserializeString_append _ r hcl
  have r4 : ∀ r, readBe 8 (beBytes 8 m.timestamp ++ r)
      = some (m.timestamp, r) := fun r => readBe_append8 _ r hts64
  have r6 : ∀ r, deserializeStrings (m.recipients.getD []).length
      (strListBytes (m.recipients.getD []) ++ r) = some (m.recipients.getD [], r) :=
    fun r => deserializeStrings_append _ r hrs32
  have r7 : ∀ r, readBe 4 (beBytes 4 (m.fetch_count.getD 0) ++ r)
      = some (m.fetch_count.getD 0, r) := fun r => readBe_append4 _ r hfc32
  have r8 : ∀ r, deserializeString
      (beBytes 4 (m.password.getD []).length ++ (m.password.getD [] ++ r))
      = some (m.password.getD [], r) := fun r => deserializeString_append _ r hpw32
  have r10 : ∀ r, deserializeStrings (m.active_users.getD []).length
      (strListBytes (m.active_users.getD []) ++ r) = some (m.active_users.getD [], r) :=
    fun r => deserializeStrings_append _ r has32
  have r11 : readBe 4 (beBytes 4 (m.unread_count.getD 0))
      = some (m.unread_count.getD 0, []) := readBe_final _ hun32
  rw [cwpDeserializeMessage]
  simp only [List.head?_cons, hdropFlat, msgTypeOfByte_headerByte, Option.getD_some,
    r1, r2, r3, r4, readBe_one, r6, r7, r8, r10, r11]
  have e1 : (if m.recipients.getD [] = [] then none else some (m.recipients.getD []))
      = m.recipients := by
    cases h' : m.recipients with
    | none => simp
    | some l =>
      have hne : l ≠ [] := fun he => hrec (by rw [h', he])
      simp [hne]
  have e2 : (if m.message_id.getD 0 = 0 then none else some (m.message_id.getD 0))
      = m.message_id := by
    cases h' : m.message_id with
    | none => simp
    | some n =>
      have hne : n ≠ 0 := fun he => hid (by rw [h', he])
      simp [hne]
  have e3 : (if m.fetch_count.getD 0 = 0 then none else some (m.fetch_count.getD 0))
      = m.fetch_count := by
    cases h' : m.fetch_count with
    | none => simp
    | some n =>
      have hne : n ≠ 0 := fun he => hfc (by rw [h', he])
      simp [hne]
  have e4 : (if m.password.getD [] = [] then none else some (m.password.getD []))
      = m.password := by
    cases h' : m.password with
    | none => simp
    | some l =>
      have hne : l ≠ [] := fun he => hpw (by rw [h', he])
      simp [hne]
  have e5 : (if m.active_users.getD [] = [] then none else some (m.active_users.getD []))
      = m.active_users := by
    cases h' : m.active_users with
    | none => simp
    | some l =>
      have hne : l ≠ [] := fun he => hau (by rw [h', he])
      simp [hne]
  have e6 : (if m.unread_count.getD 0 = 0 then none else some (m.unread_count.getD 0))
      = m.unread_count := by
    cases h' : m.unread_count with
    | none => simp
    | some n =>
      have hne : n ≠ 0 := fun he => hun (by rw [h', he])
      simp [hne]
  rw [e1, e2, e3, e4, e5, e6, ← hmi]

/-- Binary round-trip: for a message in the serializable, sentinel-free space,
deserializing the serialized bytes restores the message. -/
theorem cwpRoundtrip (m : ChatMessage) (hs : CwpSerializable m) (hf : CwpFaithful m) :
    (cwpSerializeMessage m).bind cwpDeserializeMessage = some m := by
  rw [cwpSerializeMessage_eq m hs, Option.some_bind]
  exact cwpDeserialize_serialize m hs hf

/-! ## Binary frame-extractor lemmas -/

theorem cwpExtract_shortBuf (b : List Nat) (h : b.length < 5) :
    cwpExtractMessage b = (none, b) := by
  rw [cwpExtractMessage, if_pos h]

/-- A complete well-formed frame at the head of the buffer is extracted whole,
leaving the trailing bytes. -/
theorem cwpExtract_complete (k n : Nat) (p t : List Nat)
    (hk : (msgTypeOfByte k).isSome) (hp : p.length = n) (hn : n ≤ 1000000) :
    cwpExtractMessage (k :: ((beBytes 4 n ++ p) ++ t))
      = (some (k :: (beBytes 4 n ++ p)), t) := by
  have hb4 : (beBytes 4 n).length = 4 := beBytes_length 4 n
  have hn32 : n < 256 ^ 4 := by norm_num; omega
  have hlen : (k :: ((beBytes 4 n ++ p) ++ t)).length = 5 + n + t.length := by
    simp [hb4, hp]; omega
  have htake4 : (((beBytes 4 n ++ p) ++ t).take 4) = beBytes 4 n := by
    rw [List.append_assoc]
    exact List.take_left' hb4
  have hkn : ¬((msgTypeOfByte k).isNone = true) := by
    simp only [Option.isNone_iff_eq_none]
    intro he
    rw [he] at hk
    simp at hk
  have h54 : 5 + n = (beBytes 4 n ++ p).length + 1 := by
    rw [List.length_append, hb4, hp]
    omega
  rw [cwpExtractMessage, if_neg (by rw [hlen]; omega)]
  simp only [List.headI, List.drop_succ_cons, List.drop_zero, htake4,
    fromBe_beBytes 4 n hn32]
  rw [if_neg hkn, if_neg (by omega), if_neg (by rw [hlen]; omega)]
  rw [h54, List.take_succ_cons, List.take_left, List.drop_succ_cons, List.drop_left]

/-- A strict prefix of a well-formed frame yields no message and keeps the
buffer intact (waiting for more bytes). -/
theorem cwpExtract_partial (k n : Nat) (p : List Nat) (c : Nat)
    (hk : (msgTypeOfByte k).isSome) (hp : p.length = n) (hn : n ≤ 1000000)
    (hc : c < (k :: (beBytes 4 n ++ p)).length) :
    cwpExtractMessage ((k :: (beBytes 4 n ++ p)).take c)
      = (none, (k :: (beBytes 4 n ++ p)).take c) := by
  have hb4 : (beBytes 4 n).length = 4 := beBytes_length 4 n
  have hn32 : n < 256 ^ 4 := by norm_num; omega
  have hflen : (k :: (beBytes 4 n ++ p)).length = 5 + n := by simp [hb4, hp]; omega
  have hkn : ¬((msgTypeOfByte k).isNone = true) := by
    simp only [Option.isNone_iff_eq_none]
    intro he
    rw [he] at hk
    simp at hk
  rw [hflen] at hc
  by_cases h5 : c < 5
  · apply cwpExtract_shortBuf
    rw [List.length_take]
    omega
  · obtain ⟨c', rfl⟩ : ∃ c', c = c' + 1 := ⟨c - 1, by omega⟩
    have htake : (k :: (beBytes 4 n ++ p)).take (c' + 1)
        = k :: ((beBytes 4 n ++ p).take c') := by rw [List.take_succ_cons]
    have htake4 : ((beBytes 4 n ++ p).take c').take 4 = beBytes 4 n := by
      rw [List.take_take, min_eq_left (by omega)]
      exact List.take_left' hb4
    rw [htake, cwpExtractMessage]
    rw [if_neg (by simp [List.length_take, hb4, hp]; omega)]
    simp only [List.headI, List.drop_succ_cons, List.drop_zero, htake4,
      fromBe_beBytes 4 n hn32]
    rw [if_neg hkn, if_neg (by omega),
      if_pos (by simp [List.length_take, hb4, hp]; omega)]

theorem cwpExtractAll_none (fuel : Nat) (b b' : List Nat)
    (h : cwpExtractMessage b = (none, b')) :
    cwpExtractAll (fuel + 1) b = ([], b') := by
  rw [cwpExtractAll, h]

theorem cwpExtractAll_cons (fuel : Nat) (b b' f : List Nat)
    (h : cwpExtractMessage b = (some f, b')) :
    cwpExtractAll (fuel + 1) b =
      (f :: (cwpExtractAll fuel b').1, (cwpExtractAll fuel b').2) := by
  rw [cwpExtractAll, h]

theorem cwpExtract_nil : cwpExtractMessage [] = (none, []) :=
  cwpExtract_shortBuf [] (by simp)

theorem cwpExtractAll_nil (fuel : Nat) : cwpExtractAll fuel [] = ([], []) := by
  cases fuel with
  | zero => rfl
  | succ fuel => exact cwpExtractAll_none fuel [] [] cwpExtract_nil

theorem cwpExtractAll_keep (fuel : Nat) (b : List Nat)
    (h : cwpExtractMessage b = (none, b)) :
    cwpExtractAll fuel b = ([], b) := by
  cases fuel with
  | zero => rfl
  | succ f => exact cwpExtractAll_none f b b h

/-- Feed two byte chunks sequentially through the extractor, as `handle_client`
does for two successive `recv` results: drain the first chunk, append the
second to the retained buffer, drain again. -/
def feedTwoCwp (h1 h2 : List Nat) : List (List Nat) × List Nat :=
  ((cwpDrain h1).1 ++ (cwpDrain ((cwpDrain h1).2 ++ h2)).1,
   (cwpDrain ((cwpDrain h1).2 ++ h2)).2)

theorem cwpExtractAll_oneGood (fuel k n : Nat) (p t : List Nat)
    (hk : (msgTypeOfByte k).isSome) (hp : p.length = n) (hn : n ≤ 1000000)
    (ht : cwpExtractMessage t = (none, t)) (hfuel : 1 ≤ fuel) :
    cwpExtractAll fuel (k :: ((beBytes 4 n ++ p) ++ t))
      = ([k :: (beBytes 4 n ++ p)], t) := by
  obtain ⟨f, rfl⟩ : ∃ f, fuel = f + 1 := ⟨fuel - 1, by omega⟩
  rw [cwpExtractAll_cons _ _ _ _ (cwpExtract_complete k n p t hk hp hn),
    cwpExtractAll_keep _ _ ht]

theorem cwpExtractAll_twoGood (fuel k1 n1 k2 n2 : Nat) (p1 p2 : List Nat)
    (hk1 : (msgTypeOfByte k1).isSome) (hp1 : p1.length = n1) (hn1 : n1 ≤ 1000000)
    (hk2 : (msgTypeOfByte k2).isSome) (hp2 : p2.length = n2) (hn2 : n2 ≤ 1000000)
    (hfuel : 2 ≤ fuel) :
    cwpExtractAll fuel ((k1 :: (beBytes 4 n1 ++ p1)) ++ (k2 :: (beBytes 4 n2 ++ p2)))
      = ([k1 :: (beBytes 4 n1 ++ p1), k2 :: (beBytes 4 n2 ++ p2)], []) := by
  obtain ⟨f, rfl⟩ : ∃ f, fuel = f + 1 := ⟨fuel - 1, by omega⟩
  have e1 : (k1 :: (beBytes 4 n1 ++ p1)) ++ (k2 :: (beBytes 4 n2 ++ p2))
      = k1 :: ((beBytes 4 n1 ++ p1) ++ (k2 :: (beBytes 4 n2 ++ p2))) := by simp
  rw [e1, cwpExtractAll_cons _ _ _ _ (cwpExtract_complete k1 n1 p1 _ hk1 hp1 hn1)]
  have e2 : k2 :: (beBytes 4 n2 ++ p2) = k2 :: ((beBytes 4 n2 ++ p2) ++ []) := by simp
  have hX : cwpExtractAll f (k2 :: (beBytes 4 n2 ++ p2))
      = ([k2 :: (beBytes 4 n2 ++ p2)], []) := by
    have hc2 : cwpExtractMessage (k2 :: (beBytes 4 n2 ++ p2))
        = (some (k2 :: (beBytes 4 n2 ++ p2)), []) := by
      conv_lhs => rw [e2]
      exact cwpExtract_complete k2 n2 p2 [] hk2 hp2 hn2
    obtain ⟨f', rfl⟩ : ∃ f', f = f' + 1 := ⟨f - 1, by omega⟩
    rw [cwpExtractAll_cons _ _ _ _ hc2, cwpExtractAll_nil]
  rw [hX]

/-- Framing transparency of the binary codec: splitting the concatenation of
two well-formed frames at any byte position and feeding the halves through the
extraction loop yields exactly the two frames, with an empty final buffer. -/
theorem feedTwoCwp_split (k1 n1 k2 n2 : Nat) (p1 p2 : List Nat) (c : Nat)
    (hk1 : (msgTypeOfByte k1).isSome) (hp1 : p1.length = n1) (hn1 : n1 ≤ 1000000)
    (hk2 : (msgTypeOfByte k2).isSome) (hp2 : p2.length = n2) (hn2 : n2 ≤ 1000000) :
    feedTwoCwp (((k1 :: (beBytes 4 n1 ++ p1)) ++ (k2 :: (beBytes 4 n2 ++ p2))).take c)
               (((k1 :: (beBytes 4 n1 ++ p1)) ++ (k2 :: (beBytes 4 n2 ++ p2))).drop c)
      = ([k1 :: (beBytes 4 n1 ++ p1), k2 :: (beBytes 4 n2 ++ p2)], []) := by
  set F1 := k1 :: (beBytes 4 n1 ++ p1) with hF1
  set F2 := k2 :: (beBytes 4 n2 ++ p2) with hF2
  have hl1 : F1.length = 5 + n1 := by simp [hF1, beBytes_length, hp1]; omega
  have hl2 : F2.length = 5 + n2 := by simp [hF2, beBytes_length, hp2]; omega
  by_cases hcase : c < F1.length
  · -- the split falls inside the first frame
    have htk : (F1 ++ F2).take c = F1.take c := by
      rw [List.take_append_eq_append_take, Nat.sub_eq_zero_of_le (le_of_lt hcase)]
      simp
    have hpart : cwpExtractMessage (F1.take c) = (none, F1.take c) :=
      cwpExtract_partial k1 n1 p1 c hk1 hp1 hn1 hcase
    have hd1 : cwpDrain (F1.take c) = ([], F1.take c) :=
      cwpExtractAll_keep _ _ hpart
    have hjoin : F1.take c ++ (F1 ++ F2).drop c = F1 ++ F2 := by
      rw [List.drop_append_eq_append_drop,
        Nat.sub_eq_zero_of_le (le_of_lt hcase), List.drop_zero, ← List.append_assoc,
        List.take_append_drop]
    have hd2 : cwpDrain (F1 ++ F2) = ([F1, F2], []) := by
      apply cwpExtractAll_twoGood _ _ _ _ _ _ _ hk1 hp1 hn1 hk2 hp2 hn2
      simp [hl1]
      omega
    rw [feedTwoCwp, htk]
    simp [hd1, hjoin, hd2]
  · -- the split falls at or after the end of the first frame
    push_neg at hcase
    have htk : (F1 ++ F2).take c = F1 ++ F2.take (c - F1.length) := by
      rw [List.take_append_eq_append_take, List.take_of_length_le hcase]
    have hdp : (F1 ++ F2).drop c = F2.drop (c - F1.length) := by
      rw [List.drop_append_eq_append_drop, List.drop_of_length_le hcase,
        List.nil_append]
    by_cases hc2 : c - F1.length < F2.length
    · -- the second frame is still incomplete after the first chunk
      have hpart : cwpExtractMessage (F2.take (c - F1.length))
          = (none, F2.take (c - F1.length)) :=
        cwpExtract_partial k2 n2 p2 _ hk2 hp2 hn2 hc2
      have hd1 : cwpDrain (F1 ++ F2.take (c - F1.length))
          = ([F1], F2.take (c - F1.length)) := by
        have e1 : F1 ++ F2.take (c - F1.length)
            = k1 :: ((beBytes 4 n1 ++ p1) ++ F2.take (c - F1.length)) := by simp [hF1]
        rw [cwpDrain, e1]
        apply cwpExtractAll_oneGood _ _ _ _ _ hk1 hp1 hn1 hpart
        simp
      have hjoin : F2.take (c - F1.length) ++ F2.drop (c - F1.length) = F2 :=
        List.take_append_drop _ _
      have hd2 : cwpDrain F2 = ([F2], []) := by
        have e2 : F2 = k2 :: ((beBytes 4 n2 ++ p2) ++ []) := by simp [hF2]
        rw [cwpDrain]
        conv_lhs => rw [e2]
        apply cwpExtractAll_oneGood _ _ _ _ _ hk2 hp2 hn2 cwpExtract_nil
        simp [hF2]
      rw [feedTwoCwp, htk, hdp]
      simp [hd1, hjoin, hd2]
    · -- the first chunk already holds both frames
      push_neg at hc2
      have htk2 : F2.take (c - F1.length) = F2 := List.take_of_length_le hc2
      have hdp2 : F2.drop (c - F1.length) = [] := List.drop_of_length_le hc2
      have hd1 : cwpDrain (F1 ++ F2) = ([F1, F2], []) := by
        apply cwpExtractAll_twoGood _ _ _ _ _ _ _ hk1 hp1 hn1 hk2 hp2 hn2
        simp [hl1]
        omega
      rw [feedTwoCwp, htk, htk2, hdp, hdp2, hd1]
      simp [cwpDrain, cwpExtractAll_nil]

/-! ## JSON codec (`JSONProtocol`, src/protocol.py)

`JSONProtocol.serialize_message` calls pydantic's `model_dump_json` and
`deserialize_message` calls `model_validate_json`; neither renderer lives in
this repository.  Modelled from the spec: §4.1 "Encodes the record as a JSON
object (field names in §4.2), then appends a single `\n` byte as a frame
delimiter", with the record's fields in declaration order, strings escaped by
the JSON rules, absent optional fields rendered as `null`, and the datetime
rendered as a quoted (injective) textual timestamp.  The parser below is the
canonical-format restriction of `model_validate_json`: it accepts exactly the
renderer's output shape, which is the input space the round-trip facts
quantify over. -/

/-- Lowercase hex digit byte for a value below 16. -/
def hexDigit (n : Nat) : Nat := if n < 10 then 48 + n else 87 + n

/-- JSON escaping of a single byte of string content. -/
def escByte (b : Nat) : List Nat :=
  if b = 34 then [92, 34]
  else if b = 92 then [92, 92]
  else if b = 8 then [92, 98]
  else if b = 9 then [92, 116]
  else if b = 10 then [92, 110]
  else if b = 12 then [92, 102]
  else if b = 13 then [92, 114]
  else if b < 32 then [92, 117, 48, 48, hexDigit (b / 16), hexDigit (b % 16)]
  else [b]

/-- JSON escaping of string content. -/
def escString (s : List Nat) : List Nat := (s.map escByte).flatten

/-- A JSON string literal: quote, escaped content, quote. -/
def jsonQuoted (s : List Nat) : List Nat := 34 :: (escString s ++ [34])

/-- Decimal digit bytes of a natural number, most significant first. -/
def decDigits (n : Nat) : List Nat :=
  if n = 0 then [48] else (Nat.digits 10 n).reverse.map (fun d => d + 48)

/-- An optional integer field: `null` or the decimal literal. -/
def jsonOptNat : Option Nat → List Nat
  | none => asciiOf "null"
  | some n => decDigits n

/-- An optional string field: `null` or a JSON string. -/
def jsonOptStr : Option (List Nat) → List Nat
  | none => asciiOf "null"
  | some s => jsonQuoted s

/-- The quoted textual timestamp (injective rendering of the instant). -/
def jsonTimestamp (n : Nat) : List Nat := 34 :: (decDigits n ++ [34])

/-- Comma-separated concatenation of rendered array elements. -/
def jsonCommaSep : List (List Nat) → List Nat
  | [] => []
  | [x] => x
  | x :: t => x ++ (44 :: jsonCommaSep t)

/-- A JSON array of strings. -/
def jsonStrList (l : List (List Nat)) : List Nat :=
  91 :: (jsonCommaSep (l.map jsonQuoted) ++ [93])

/-- A JSON array of integers. -/
def jsonNatList (l : List Nat) : List Nat :=
  91 :: (jsonCommaSep (l.map decDigits) ++ [93])

def jsonOptStrList : Option (List (List Nat)) → List Nat
  | none => asciiOf "null"
  | some l => jsonStrList l

def jsonOptNatList : Option (List Nat) → List Nat
  | none => asciiOf "null"
  | some l => jsonNatList l

/-- The rendered JSON object for a `ChatMessage`, fields in declaration
order (the shape of `ChatMessage.model_dump_json`). -/
def jsonBytes (m : ChatMessage) : List Nat :=
  asciiOf "\x7b\"username\":" ++ jsonQuoted m.username ++
  asciiOf ",\"content\":" ++ jsonQuoted m.content ++
  asciiOf ",\"timestamp\":" ++ jsonTimestamp m.timestamp ++
  asciiOf ",\"message_type\":" ++ jsonQuoted m.message_type.value ++
  asciiOf ",\"recipients\":" ++ jsonOptStrList m.recipients ++
  asciiOf ",\"message_id\":" ++ jsonOptNat m.message_id ++
  asciiOf ",\"fetch_count\":" ++ jsonOptNat m.fetch_count ++
  asciiOf ",\"message_ids\":" ++ jsonOptNatList m.message_ids ++
  asciiOf ",\"password\":" ++ jsonOptStr m.password ++
  asciiOf ",\"active_users\":" ++ jsonOptStrList m.active_users ++
  asciiOf ",\"unread_count\":" ++ jsonOptNat m.unread_count ++
  asciiOf "\x7d"

/-- `JSONProtocol.serialize_message`: 1MB content guard, then the rendered
object (no framing; `frame_message` adds the newline). -/
def jsonSerializeMessage (m : ChatMessage) : Option (List Nat) :=
  if 1000000 < m.content.length then none else some (jsonBytes m)

/-- Strip an expected literal from the front of the buffer. -/
def stripLit : List Nat → List Nat → Option (List Nat)
  | [], b => some b
  | _ :: _, [] => none
  | x :: xs, y :: ys => if y = x then stripLit xs ys else none

/-- Value of a hex digit byte. -/
def hexVal (b : Nat) : Option Nat :=
  if 48 ≤ b ∧ b ≤ 57 then some (b - 48)
  else if 97 ≤ b ∧ b ≤ 102 then some (b - 87)
  else if 65 ≤ b ∧ b ≤ 70 then some (b - 55)
  else none

/-- Parse JSON string content up to the closing quote, undoing escapes. -/
def parseStrBody : List Nat → Option (List Nat × List Nat)
  | [] => none
  | b :: rest =>
    if b = 34 then some ([], rest)
    else if b = 92 then
      match rest with
      | [] => none
      | e :: rest2 =>
        if e = 34 then (parseStrBody rest2).map (fun p => (34 :: p.1, p.2))
        else if e = 92 then (parseStrBody rest2).map (fun p => (92 :: p.1, p.2))
        else if e = 98 then (parseStrBody rest2).map (fun p => (8 :: p.1, p.2))
        else if e = 116 then (parseStrBody rest2).map (fun p => (9 :: p.1, p.2))
        else if e = 110 then (parseStrBody rest2).map (fun p => (10 :: p.1, p.2))
        else if e = 102 then (parseStrBody rest2).map (fun p => (12 :: p.1, p.2))
        else if e = 114 then (parseStrBody rest2).map (fun p => (13 :: p.1, p.2))
        else if e = 117 then
          match rest2 with
          | h1 :: h2 :: h3 :: h4 :: rest3 =>
            match hexVal h1, hexVal h2, hexVal h3, hexVal h4 with
            | some a, some b2, some c, some d =>
              (parseStrBody rest3).map
                (fun p => ((((a * 16 + b2) * 16 + c) * 16 + d) :: p.1, p.2))
            | _, _, _, _ => none
          | _ => none
        else none
    else if b < 32 then none
    else (parseStrBody rest).map (fun p => (b :: p.1, p.2))

/-- Parse a JSON string literal (opening quote then content). -/
def parseJString : List Nat → Option (List Nat × List Nat)
  | 34 :: rest => parseStrBody rest
  | _ => none

def isDigitB (b : Nat) : Bool := decide (48 ≤ b ∧ b ≤ 57)

/-- Parse a decimal integer literal (one or more digit bytes). -/
def parseNat (b : List Nat) : Option (Nat × List Nat) :=
  let ds := b.takeWhile isDigitB
  if ds = [] then none
  else some (ds.foldl (fun a d => a * 10 + (d - 48)) 0, b.dropWhile isDigitB)

/-- Parse the quoted textual timestamp. -/
def parseTimestamp (b : List Nat) : Option (Nat × List Nat) :=
  match b with
  | 34 :: rest =>
    match parseNat rest with
    | some (n, rest2) =>
      match rest2 with
      | 34 :: rest3 => some (n, rest3)
      | _ => none
    | none => none
  | _ => none

/-- Parse one-or-more comma-separated JSON strings up to `]`. -/
def parseStrItems : Nat → List Nat → Option (List (List Nat) × List Nat)
  | 0, _ => none
  | fuel + 1, b =>
    match parseJString b with
    | none => none
    | some (s, rest) =>
      match rest with
      | 44 :: rest2 => (parseStrItems fuel rest2).map (fun p => (s :: p.1, p.2))
      | 93 :: rest2 => some ([s], rest2)
      | _ => none

/-- Parse a JSON array of strings. -/
def parseStrList (b : List Nat) : Option (List (List Nat) × List Nat) :=
  match b with
  | 91 :: rest =>
    match rest with
    | [] => none
    | c :: rest2 =>
      if c = 93 then some ([], rest2)
      else parseStrItems (c :: rest2).length (c :: rest2)
  | _ => none

/-- Parse one-or-more comma-separated integers up to `]`. -/
def parseNatItems : Nat → List Nat → Option (List Nat × List Nat)
  | 0, _ => none
  | fuel + 1, b =>
    match parseNat b with
    | none => none
    | some (n, rest) =>
      match rest with
      | 44 :: rest2 => (parseNatItems fuel rest2).map (fun p => (n :: p.1, p.2))
      | 93 :: rest2 => some ([n], rest2)
      | _ => none

/-- Parse a JSON array of integers. -/
def parseNatList (b : List Nat) : Option (List Nat × List Nat) :=
  match b with
  | 91 :: rest =>
    match rest with
    | [] => none
    | c :: rest2 =>
      if c = 93 then some ([], rest2)
      else parseNatItems (c :: rest2).length (c :: rest2)
  | _ => none

/-- Consume the tail `ull` of a `null` literal. -/
def stripNull (rest : List Nat) : Option (List Nat) :=
  match rest with
  | u :: l1 :: l2 :: rest2 =>
    if u = 117 ∧ l1 = 108 ∧ l2 = 108 then some rest2 else none
  | _ => none

/-- Parse `null` or an integer. -/
def parseOptNat (b : List Nat) : Option (Option Nat × List Nat) :=
  match b with
  | [] => none
  | c :: rest =>
    if c = 110 then (stripNull rest).map (fun r2 => (none, r2))
    else (parseNat (c :: rest)).map (fun p => (some p.1, p.2))

/-- Parse `null` or a JSON string. -/
def parseOptStr (b : List Nat) : Option (Option (List Nat) × List Nat) :=
  match b with
  | [] => none
  | c :: rest =>
    if c = 110 then (stripNull rest).map (fun r2 => (none, r2))
    else (parseJString (c :: rest)).map (fun p => (some p.1, p.2))

/-- Parse `null` or an array of strings. -/
def parseOptStrList (b : List Nat) : Option (Option (List (List Nat)) × List Nat) :=
  match b with
  | [] => none
  | c :: rest =>
    if c = 110 then (stripNull rest).map (fun r2 => (none, r2))
    else (parseStrList (c :: rest)).map (fun p => (some p.1, p.2))

/-- Parse `null` or an array of integers. -/
def parseOptNatList (b : List Nat) : Option (Option (List Nat) × List Nat) :=
  match b with
  | [] => none
  | c :: rest =>
    if c = 110 then (stripNull rest).map (fun r2 => (none, r2))
    else (parseNatList (c :: rest)).map (fun p => (some p.1, p.2))

/-- The `message_type` enum validation: the string must be one of the twelve
member values. -/
def msgTypeOfValue (s : List Nat) : Option MessageType :=
  msgTypeList.find? (fun mt => mt.value == s)

/-- The canonical-format parser for the rendered `ChatMessage` object. -/
def jsonParseMessage (b : List Nat) : Option ChatMessage :=
  match stripLit (asciiOf "\x7b\"username\":") b with
  | none => none
  | some b =>
  match parseJString b with
  | none => none
  | some (username, b) =>
  match stripLit (asciiOf ",\"content\":") b with
  | none => none
  | some b =>
  match parseJString b with
  | none => none
  | some (content, b) =>
  match stripLit (asciiOf ",\"timestamp\":") b with
  | none => none
  | some b =>
  match parseTimestamp b with
  | none => none
  | some (ts, b) =>
  match stripLit (asciiOf ",\"message_type\":") b with
  | none => none
  | some b =>
  match parseJString b with
  | none => none
  | some (mts, b) =>
  match msgTypeOfValue mts with
  | none => none
  | some mt =>
  match stripLit (asciiOf ",\"recipients\":") b with
  | none => none
  | some b =>
  match parseOptStrList b with
  | none => none
  | some (recipients, b) =>
  match stripLit (asciiOf ",\"message_id\":") b with
  | none => none
  | some b =>
  match parseOptNat b with
  | none => none
  | some (message_id, b) =>
  match stripLit (asciiOf ",\"fetch_count\":") b with
  | none => none
  | some b =>
  match parseOptNat b with
  | none => none
  | some (fetch_count, b) =>
  match stripLit (asciiOf ",\"message_ids\":") b with
  | none => none
  | some b =>
  match parseOptNatList b with
  | none => none
  | some (message_ids, b) =>
  match stripLit (asciiOf ",\"password\":") b with
  | none => none
  | some b =>
  match parseOptStr b with
  | none => none
  | some (password, b) =>
  match stripLit (asciiOf ",\"active_users\":") b with
  | none => none
  | some b =>
  match parseOptStrList b with
  | none => none
  | some (active_users, b) =>
  match stripLit (asciiOf ",\"unread_count\":") b with
  | none => none
  | some b =>
  match parseOptNat b with
  | none => none
  | some (unread_count, b) =>
  match stripLit (asciiOf "\x7d") b with
  | some [] =>
    some { username := username
           content := content
           timestamp := ts
           message_type := mt
           recipients := recipients
           message_id := message_id
           fetch_count := fetch_count
           message_ids := message_ids
           password := password
           active_users := active_users
           unread_count := unread_count }
  | _ => none

/-- `JSONProtocol.deserialize_message`: validate, then reject content over
1MB (`ValueError` after deserialization). -/
def jsonDeserializeMessage (b : List Nat) : Option ChatMessage :=
  match jsonParseMessage b with
  | none => none
  | some m => if 1000000 < m.content.length then none else some m

/-! ## JSON round-trip lemmas -/

theorem stripLit_append (p r : List Nat) : stripLit p (p ++ r) = some r := by
  induction p with
  | nil => rfl
  | cons x xs ih => simp [stripLit, ih]

theorem stripLit_self (p : List Nat) : stripLit p p = some [] := by
  simpa using stripLit_append p []

theorem hexVal_hexDigit (x : Nat) (h : x < 16) : hexVal (hexDigit x) = some x := by
  by_cases hx : x < 10
  · rw [hexDigit, if_pos hx, hexVal, if_pos (by omega)]
    exact congrArg some (by omega)
  · rw [hexDigit, if_neg hx, hexVal, if_neg (by omega), if_pos (by omega)]
    exact congrArg some (by omega)

theorem parseStrBody_esc (s r : List Nat) :
    parseStrBody (escString s ++ (34 :: r)) = some (s, r) := by
  induction s with
  | nil =>
    rw [show escString [] ++ (34 :: r) = 34 :: r by simp [escString],
      parseStrBody.eq_def]
    simp
  | cons b t ih =>
    have hesc : escString (b :: t) ++ (34 :: r)
        = escByte b ++ (escString t ++ (34 :: r)) := by
      simp [escString]
    rw [hesc]
    by_cases h34 : b = 34
    · subst h34
      rw [show escByte 34 = [92, 34] from rfl, parseStrBody.eq_def]
      simp [ih]
    · by_cases h92 : b = 92
      · subst h92
        rw [show escByte 92 = [92, 92] from rfl, parseStrBody.eq_def]
        simp [ih]
      · by_cases h8 : b = 8
        · subst h8
          rw [show escByte 8 = [92, 98] from rfl, parseStrBody.eq_def]
          simp [ih]
        · by_cases h9 : b = 9
          · subst h9
            rw [show escByte 9 = [92, 116] from rfl, parseStrBody.eq_def]
            simp [ih]
          · by_cases h10 : b = 10
            · subst h10
              rw [show escByte 10 = [92, 110] from rfl, parseStrBody.eq_def]
              simp [ih]
            · by_cases h12 : b = 12
              · subst h12
                rw [show escByte 12 = [92, 102] from rfl, parseStrBody.eq_def]
                simp [ih]
              · by_cases h13 : b = 13
                · subst h13
                  rw [show escByte 13 = [92, 114] from rfl, parseStrBody.eq_def]
                  simp [ih]
                · by_cases hlt : b < 32
                  · rw [escByte, if_neg h34, if_neg h92, if_neg h8, if_neg h9,
                      if_neg h10, if_neg h12, if_neg h13, if_pos hlt,
                      parseStrBody.eq_def]
                    have hv1 := hexVal_hexDigit (b / 16) (by omega)
                    have hv2 := hexVal_hexDigit (b % 16) (by omega)
                    have hv48 : hexVal 48 = some 0 := rfl
                    simp [hv1, hv2, hv48, ih]
                    omega
                  · rw [escByte, if_neg h34, if_neg h92, if_neg h8, if_neg h9,
                      if_neg h10, if_neg h12, if_neg h13, if_neg hlt,
                      parseStrBody.eq_def]
                    simp [h34, h92, hlt, ih]

theorem parseJString_quoted (s r : List Nat) :
    parseJString (jsonQuoted s ++ r) = some (s, r) := by
  have he : jsonQuoted s ++ r = 34 :: (escString s ++ (34 :: r)) := by
    simp [jsonQuoted]
  rw [he]
  simpa [parseJString] using parseStrBody_esc s r

theorem twApp (p : Nat → Bool) (l r : List Nat) (h : ∀ x ∈ l, p x = true) :
    (l ++ r).takeWhile p = l ++ r.takeWhile p := by
  induction l with
  | nil => simp
  | cons a t ih =>
    have ha := h a (by simp)
    simp [List.takeWhile_cons, ha, ih (fun x hx => h x (by simp [hx]))]

theorem dwApp (p : Nat → Bool) (l r : List Nat) (h : ∀ x ∈ l, p x = true) :
    (l ++ r).dropWhile p = r.dropWhile p := by
  induction l with
  | nil => simp
  | cons a t ih =>
    have ha := h a (by simp)
    simp [List.dropWhile_cons, ha, ih (fun x hx => h x (by simp [hx]))]

theorem decDigits_digit (n : Nat) : ∀ x ∈ decDigits n, isDigitB x = true := by
  intro x hx
  rw [decDigits] at hx
  by_cases h0 : n = 0
  · simp [h0] at hx
    subst hx
    rfl
  · rw [if_neg h0] at hx
    simp only [List.mem_map, List.mem_reverse] at hx
    obtain ⟨d, hd, rfl⟩ := hx
    have hlt : d < 10 := Nat.digits_lt_base (by norm_num) hd
    simp [isDigitB]
    omega

theorem decDigits_ne_nil (n : Nat) : decDigits n ≠ [] := by
  rw [decDigits]
  by_cases h0 : n = 0
  · simp [h0]
  · rw [if_neg h0]
    simp [Nat.digits_ne_nil_iff_ne_zero, h0]

theorem foldl_digits_aux (L : List Nat) (a : Nat) :
    ((L.reverse.map (fun d => d + 48)).foldl (fun x d => x * 10 + (d - 48)) a)
      = a * 10 ^ L.length + Nat.ofDigits 10 L := by
  induction L generalizing a with
  | nil => simp [Nat.ofDigits]
  | cons d T ih =>
    simp only [List.reverse_cons, List.map_append, List.foldl_append, ih,
      List.map_cons, List.foldl_cons, List.foldl_nil, List.length_cons]
    rw [Nat.ofDigits_cons, pow_succ]
    have hd : d + 48 - 48 = d := by omega
    rw [hd]
    simp only [List.map_nil, List.foldl_nil]
    ring

theorem foldl_decDigits (n : Nat) :
    (decDigits n).foldl (fun a d => a * 10 + (d - 48)) 0 = n := by
  rw [decDigits]
  by_cases h0 : n = 0
  · simp [h0]
  · rw [if_neg h0]
    have := foldl_digits_aux (Nat.digits 10 n) 0
    simpa [Nat.ofDigits_digits] using this

theorem parseNat_round (n : Nat) (l : List Nat)
    (hl : ∃ c t, l = c :: t ∧ isDigitB c = false) :
    parseNat (decDigits n ++ l) = some (n, l) := by
  obtain ⟨c, t, rfl, hc⟩ := hl
  have hall := decDigits_digit n
  have htw : (decDigits n ++ c :: t).takeWhile isDigitB = decDigits n := by
    rw [twApp _ _ _ hall, List.takeWhile_cons, hc]
    simp
  have hdw : (decDigits n ++ c :: t).dropWhile isDigitB = c :: t := by
    rw [dwApp _ _ _ hall, List.dropWhile_cons, hc]
    simp
  rw [parseNat]
  simp only [htw, hdw]
  rw [if_neg (decDigits_ne_nil n), foldl_decDigits n]

theorem parseTimestamp_round (n : Nat) (r : List Nat) :
    parseTimestamp (jsonTimestamp n ++ r) = some (n, r) := by
  have he : jsonTimestamp n ++ r = 34 :: (decDigits n ++ (34 :: r)) := by
    simp [jsonTimestamp]
  have hn := parseNat_round n (34 :: r) ⟨34, r, rfl, rfl⟩
  rw [he]
  simp [parseTimestamp, hn]

theorem decDigits_cons (n : Nat) :
    ∃ d ds, decDigits n = d :: ds ∧ isDigitB d = true := by
  obtain ⟨d, ds, hd⟩ : ∃ d ds, decDigits n = d :: ds := by
    cases h : decDigits n with
    | nil => exact absurd h (decDigits_ne_nil n)
    | cons d ds => exact ⟨d, ds, rfl⟩
  exact ⟨d, ds, hd, decDigits_digit n d (by rw [hd]; simp)⟩

theorem parseOptNat_round (o : Option Nat) (l : List Nat)
    (hl : ∃ c t, l = c :: t ∧ isDigitB c = false) :
    parseOptNat (jsonOptNat o ++ l) = some (o, l) := by
  cases o with
  | none => rfl
  | some n =>
    obtain ⟨d, ds, hd, hdig⟩ := decDigits_cons n
    have hne : ¬(d = 110) := by simp [isDigitB] at hdig; omega
    have hbuf : jsonOptNat (some n) ++ l = d :: (ds ++ l) := by
      simp [jsonOptNat, hd]
    have hback : d :: (ds ++ l) = decDigits n ++ l := by simp [hd]
    rw [hbuf, parseOptNat, if_neg hne, hback, parseNat_round n l hl]
    rfl

theorem parseOptStr_round (o : Option (List Nat)) (l : List Nat) :
    parseOptStr (jsonOptStr o ++ l) = some (o, l) := by
  cases o with
  | none => rfl
  | some s =>
    have hbuf : jsonOptStr (some s) ++ l = 34 :: ((escString s ++ [34]) ++ l) := by
      simp [jsonOptStr, jsonQuoted]
    rw [hbuf, parseOptStr, if_neg (by omega)]
    have hq := parseJString_quoted s l
    rw [show jsonQuoted s ++ l = 34 :: ((escString s ++ [34]) ++ l) by
      simp [jsonQuoted]] at hq
    rw [hq]
    rfl

theorem jsonCommaSep_cons (x : List Nat) (t : List (List Nat)) (ht : t ≠ []) :
    jsonCommaSep (x :: t) = x ++ (44 :: jsonCommaSep t) := by
  cases t with
  | nil => exact absurd rfl ht
  | cons y u => rfl

theorem jsonCommaSep_len {α : Type} (g : α → List Nat) (l : List α)
    (hg : ∀ x, 1 ≤ (g x).length) :
    l.length ≤ (jsonCommaSep (l.map g)).length := by
  induction l with
  | nil => simp [jsonCommaSep]
  | cons x t ih =>
    cases t with
    | nil => simpa [jsonCommaSep] using hg x
    | cons y u =>
      rw [List.map_cons, jsonCommaSep_cons _ _ (by simp)]
      have h1 := hg x
      have h2 := ih
      simp only [List.length_cons, List.length_append] at h2 ⊢
      omega

theorem parseStrItems_round (l : List (List Nat)) (r : List Nat) (fuel : Nat)
    (hne : l ≠ []) (hfuel : l.length ≤ fuel) :
    parseStrItems fuel (jsonCommaSep (l.map jsonQuoted) ++ (93 :: r)) = some (l, r) := by
  induction l generalizing r fuel with
  | nil => exact absurd rfl hne
  | cons s t ih =>
    obtain ⟨f, rfl⟩ : ∃ f, fuel = f + 1 := ⟨fuel - 1, by
      simp only [List.length_cons] at hfuel; omega⟩
    cases t with
    | nil =>
      rw [show jsonCommaSep ([s].map jsonQuoted) ++ (93 :: r)
          = jsonQuoted s ++ (93 :: r) from rfl]
      rw [parseStrItems, parseJString_quoted s (93 :: r)]
    | cons u t' =>
      have he : jsonCommaSep ((s :: u :: t').map jsonQuoted) ++ (93 :: r)
          = jsonQuoted s ++ (44 :: (jsonCommaSep ((u :: t').map jsonQuoted) ++ (93 :: r))) := by
        rw [List.map_cons, jsonCommaSep_cons _ _ (by simp)]
        simp
      have hih := ih r f (by simp)
        (by simp only [List.length_cons] at hfuel ⊢; omega)
      rw [List.map_cons] at hih
      rw [he, parseStrItems, parseJString_quoted]
      simp [hih]

theorem parseStrList_round (l : List (List Nat)) (r : List Nat) :
    parseStrList (jsonStrList l ++ r) = some (l, r) := by
  cases l with
  | nil =>
    rw [show jsonStrList [] ++ r = 91 :: (93 :: r) by simp [jsonStrList, jsonCommaSep]]
    rw [parseStrList]
    simp
  | cons s t =>
    obtain ⟨Y, hY⟩ : ∃ Y, jsonCommaSep ((s :: t).map jsonQuoted) ++ (93 :: r)
        = 34 :: Y := by
      cases t with
      | nil =>
        exact ⟨(escString s ++ [34]) ++ (93 :: r), by simp [jsonCommaSep, jsonQuoted]⟩
      | cons u t' =>
        refine ⟨(escString s ++ [34]) ++
          ((44 :: jsonCommaSep ((u :: t').map jsonQuoted)) ++ (93 :: r)), ?_⟩
        rw [List.map_cons, jsonCommaSep_cons _ _ (by simp)]
        simp [jsonQuoted]
    have hlen : (s :: t).length
        ≤ (jsonCommaSep ((s :: t).map jsonQuoted) ++ (93 :: r)).length := by
      have := jsonCommaSep_len jsonQuoted (s :: t) (fun x => by simp [jsonQuoted])
      simp only [List.length_append]
      simp only [List.length_cons] at this ⊢
      omega
    have hps : parseStrList (91 :: (34 :: Y))
        = parseStrItems (34 :: Y).length (34 :: Y) := by
      simp [parseStrList]
    rw [show jsonStrList (s :: t) ++ r
        = 91 :: (jsonCommaSep ((s :: t).map jsonQuoted) ++ (93 :: r)) by
      simp [jsonStrList], hY, hps, ← hY]
    exact parseStrItems_round (s :: t) r _ (by simp) hlen

theorem parseNatItems_round (l : List Nat) (r : List Nat) (fuel : Nat)
    (hne : l ≠ []) (hfuel : l.length ≤ fuel) :
    parseNatItems fuel (jsonCommaSep (l.map decDigits) ++ (93 :: r)) = some (l, r) := by
  induction l generalizing r fuel with
  | nil => exact absurd rfl hne
  | cons n t ih =>
    obtain ⟨f, rfl⟩ : ∃ f, fuel = f + 1 := ⟨fuel - 1, by
      simp only [List.length_cons] at hfuel; omega⟩
    cases t with
    | nil =>
      rw [show jsonCommaSep ([n].map decDigits) ++ (93 :: r)
          = decDigits n ++ (93 :: r) from rfl]
      rw [parseNatItems, parseNat_round n (93 :: r) ⟨93, r, rfl, rfl⟩]
    | cons u t' =>
      have he : jsonCommaSep ((n :: u :: t').map decDigits) ++ (93 :: r)
          = decDigits n ++ (44 :: (jsonCommaSep ((u :: t').map decDigits) ++ (93 :: r))) := by
        rw [List.map_cons, jsonCommaSep_cons _ _ (by simp)]
        simp
      have hih := ih r f (by simp)
        (by simp only [List.length_cons] at hfuel ⊢; omega)
      rw [List.map_cons] at hih
      rw [he, parseNatItems, parseNat_round n _ ⟨44, _, rfl, rfl⟩]
      simp [hih]

theorem parseNatList_round (l : List Nat) (r : List Nat) :
    parseNatList (jsonNatList l ++ r) = some (l, r) := by
  cases l with
  | nil =>
    rw [show jsonNatList [] ++ r = 91 :: (93 :: r) by simp [jsonNatList, jsonCommaSep]]
    rw [parseNatList]
    simp
  | cons n t =>
    obtain ⟨d, ds, hd, hdig⟩ := decDigits_cons n
    obtain ⟨Y, hY⟩ : ∃ Y, jsonCommaSep ((n :: t).map decDigits) ++ (93 :: r)
        = d :: Y := by
      cases t with
      | nil => exact ⟨ds ++ (93 :: r), by simp [jsonCommaSep, hd]⟩
      | cons u t' =>
        refine ⟨ds ++ ((44 :: jsonCommaSep ((u :: t').map decDigits)) ++ (93 :: r)), ?_⟩
        rw [List.map_cons, jsonCommaSep_cons _ _ (by simp), hd]
        simp
    have hd93 : ¬(d = 93) := by simp [isDigitB] at hdig; omega
    have hlen : (n :: t).length
        ≤ (jsonCommaSep ((n :: t).map decDigits) ++ (93 :: r)).length := by
      have := jsonCommaSep_len decDigits (n :: t) (fun x => by
        cases hx : decDigits x with
        | nil => exact absurd hx (decDigits_ne_nil x)
        | cons a b => simp)
      simp only [List.length_append, List.length_cons] at this ⊢
      omega
    have hps : parseNatList (91 :: (d :: Y)) = parseNatItems (d :: Y).length (d :: Y) := by
      simp [parseNatList, hd93]
    rw [show jsonNatList (n :: t) ++ r
        = 91 :: (jsonCommaSep ((n :: t).map decDigits) ++ (93 :: r)) by
      simp [jsonNatList], hY, hps, ← hY]
    exact parseNatItems_round (n :: t) r _ (by simp) hlen

theorem parseOptStrList_round (o : Option (List (List Nat))) (l : List Nat) :
    parseOptStrList (jsonOptStrList o ++ l) = some (o, l) := by
  cases o with
  | none => rfl
  | some ll =>
    have hbuf : jsonOptStrList (some ll) ++ l
        = 91 :: ((jsonCommaSep (ll.map jsonQuoted) ++ [93]) ++ l) := by
      simp [jsonOptStrList, jsonStrList]
    have hq := parseStrList_round ll l
    rw [show jsonStrList ll ++ l
        = 91 :: ((jsonCommaSep (ll.map jsonQuoted) ++ [93]) ++ l) by
      simp [jsonStrList]] at hq
    rw [hbuf, parseOptStrList, if_neg (by omega), hq]
    rfl

theorem parseOptNatList_round (o : Option (List Nat)) (l : List Nat) :
    parseOptNatList (jsonOptNatList o ++ l) = some (o, l) := by
  cases o with
  | none => rfl
  | some ll =>
    have hbuf : jsonOptNatList (some ll) ++ l
        = 91 :: ((jsonCommaSep (ll.map decDigits) ++ [93]) ++ l) := by
      simp [jsonOptNatList, jsonNatList]
    have hq := parseNatList_round ll l
    rw [show jsonNatList ll ++ l
        = 91 :: ((jsonCommaSep (ll.map decDigits) ++ [93]) ++ l) by
      simp [jsonNatList]] at hq
    rw [hbuf, parseOptNatList, if_neg (by omega), hq]
    rfl

theorem msgTypeOfValue_value (mt : MessageType) : msgTypeOfValue mt.value = some mt := by
  cases mt <;> rfl

/-- The canonical parser inverts the renderer on every message. -/
theorem jsonParse_round (m : ChatMessage) : jsonParseMessage (jsonBytes m) = some m := by
  have h1 : ∀ r, parseOptNat (jsonOptNat m.message_id ++ (asciiOf ",\"fetch_count\":" ++ r))
      = some (m.message_id, asciiOf ",\"fetch_count\":" ++ r) :=
    fun r => parseOptNat_round _ _ ⟨44, _, rfl, rfl⟩
  have h2 : ∀ r, parseOptNat (jsonOptNat m.fetch_count ++ (asciiOf ",\"message_ids\":" ++ r))
      = some (m.fetch_count, asciiOf ",\"message_ids\":" ++ r) :=
    fun r => parseOptNat_round _ _ ⟨44, _, rfl, rfl⟩
  have h3 : parseOptNat (jsonOptNat m.unread_count ++ asciiOf "\x7d")
      = some (m.unread_count, asciiOf "\x7d") :=
    parseOptNat_round _ _ ⟨125, [], rfl, rfl⟩
  rw [jsonParseMessage, jsonBytes]
  simp only [List.append_assoc, stripLit_append, parseJString_quoted,
    parseTimestamp_round, msgTypeOfValue_value, parseOptStrList_round,
    parseOptNatList_round, parseOptStr_round, h1, h2, h3, stripLit_self]

/-- JSON round-trip: deserializing the serializer's output restores the
message whenever serialization succeeds (content within the 1MB limit). -/
theorem jsonRoundtrip (m : ChatMessage) (hc : m.content.length ≤ 1000000) :
    (jsonSerializeMessage m).bind jsonDeserializeMessage = some m := by
  have hng : ¬(1000000 < m.content.length) := by omega
  rw [jsonSerializeMessage, if_neg hng, Option.some_bind, jsonDeserializeMessage,
    jsonParse_round m]
  simp [hng]

/-! ## JSON framing (`JSONProtocol.frame_message` / `extract_message`) -/

/-- `JSONProtocol.frame_message`: append the newline delimiter. -/
def jsonFrameMessage (d : List Nat) : List Nat := d ++ [10]

/-- `JSONProtocol.extract_message`: everything before the first newline is a
frame; without a newline the buffer is retained. -/
def jsonExtractMessage (b : List Nat) : Option (List Nat) × List Nat :=
  if 10 ∈ b then
    (some (b.takeWhile (fun x => x != 10)), (b.dropWhile (fun x => x != 10)).drop 1)
  else (none, b)

/-- The server's extraction loop for the JSON codec. -/
def jsonExtractAll : Nat → List Nat → List (List Nat) × List Nat
  | 0, b => ([], b)
  | fuel + 1, b =>
    match jsonExtractMessage b with
    | (none, b') => ([], b')
    | (some f, b') =>
      let (fs, r) := jsonExtractAll fuel b'
      (f :: fs, r)

def jsonDrain (b : List Nat) : List (List Nat) × List Nat :=
  jsonExtractAll (b.length + 1) b

/-- Feed two byte chunks sequentially through the JSON extraction loop. -/
def feedTwoJson (h1 h2 : List Nat) : List (List Nat) × List Nat :=
  ((jsonDrain h1).1 ++ (jsonDrain ((jsonDrain h1).2 ++ h2)).1,
   (jsonDrain ((jsonDrain h1).2 ++ h2)).2)

theorem jsonExtract_none (b : List Nat) (h : 10 ∉ b) :
    jsonExtractMessage b = (none, b) := by
  rw [jsonExtractMessage, if_neg h]

theorem jsonExtract_complete (x y : List Nat) (hx : 10 ∉ x) :
    jsonExtractMessage (x ++ (10 :: y)) = (some x, y) := by
  have hp : ∀ z ∈ x, (fun w => w != 10) z = true := by
    intro z hz
    simp only [bne_iff_ne, ne_eq]
    exact fun he => hx (he ▸ hz)
  have htw : (x ++ (10 :: y)).takeWhile (fun w => w != 10) = x := by
    rw [twApp _ _ _ hp, List.takeWhile_cons]
    simp
  have hdw : (x ++ (10 :: y)).dropWhile (fun w => w != 10) = 10 :: y := by
    rw [dwApp _ _ _ hp, List.dropWhile_cons]
    simp
  rw [jsonExtractMessage, if_pos (by simp), htw, hdw]
  rfl

theorem jsonExtractAll_none (fuel : Nat) (b b' : List Nat)
    (h : jsonExtractMessage b = (none, b')) :
    jsonExtractAll (fuel + 1) b = ([], b') := by
  rw [jsonExtractAll, h]

theorem jsonExtractAll_cons (fuel : Nat) (b b' f : List Nat)
    (h : jsonExtractMessage b = (some f, b')) :
    jsonExtractAll (fuel + 1) b =
      (f :: (jsonExtractAll fuel b').1, (jsonExtractAll fuel b').2) := by
  rw [jsonExtractAll, h]

theorem jsonExtractAll_keep (fuel : Nat) (b : List Nat)
    (h : jsonExtractMessage b = (none, b)) :
    jsonExtractAll fuel b = ([], b) := by
  cases fuel with
  | zero => rfl
  | succ f => exact jsonExtractAll_none f b b h

theorem jsonExtractAll_nil (fuel : Nat) : jsonExtractAll fuel [] = ([], []) := by
  exact jsonExtractAll_keep fuel [] (jsonExtract_none [] (by simp))

theorem jsonExtractAll_oneGood (fuel : Nat) (x t : List Nat) (hx : 10 ∉ x)
    (ht : jsonExtractMessage t = (none, t)) (hfuel : 1 ≤ fuel) :
    jsonExtractAll fuel (x ++ (10 :: t)) = ([x], t) := by
  obtain ⟨f, rfl⟩ : ∃ f, fuel = f + 1 := ⟨fuel - 1, by omega⟩
  rw [jsonExtractAll_cons _ _ _ _ (jsonExtract_complete x t hx),
    jsonExtractAll_keep _ _ ht]

theorem jsonExtractAll_twoGood (fuel : Nat) (A B : List Nat)
    (hA : 10 ∉ A) (hB : 10 ∉ B) (hfuel : 2 ≤ fuel) :
    jsonExtractAll fuel ((A ++ [10]) ++ (B ++ [10])) = ([A, B], []) := by
  obtain ⟨f, rfl⟩ : ∃ f, fuel = f + 1 := ⟨fuel - 1, by omega⟩
  have e1 : (A ++ [10]) ++ (B ++ [10]) = A ++ (10 :: (B ++ [10])) := by simp
  rw [e1, jsonExtractAll_cons _ _ _ _ (jsonExtract_complete A _ hA)]
  have hX : jsonExtractAll f (B ++ [10]) = ([B], []) := by
    have e2 : B ++ [10] = B ++ (10 :: ([] : List Nat)) := by simp
    rw [e2]
    exact jsonExtractAll_oneGood f B [] hB (jsonExtract_none [] (by simp)) (by omega)
  rw [hX]

/-- Framing transparency of the JSON codec: splitting the concatenation of two
newline-framed messages at any byte position and feeding the halves through
the extraction loop yields exactly the two payloads, with an empty buffer. -/
theorem feedTwoJson_split (A B : List Nat) (c : Nat) (hA : 10 ∉ A) (hB : 10 ∉ B) :
    feedTwoJson (((A ++ [10]) ++ (B ++ [10])).take c)
                (((A ++ [10]) ++ (B ++ [10])).drop c) = ([A, B], []) := by
  set F1 := A ++ [10] with hF1
  set F2 := B ++ [10] with hF2
  by_cases hcase : c < F1.length
  · have hcA : c ≤ A.length := by
      simp only [hF1, List.length_append, List.length_cons, List.length_nil] at hcase
      omega
    have htk : (F1 ++ F2).take c = A.take c := by
      rw [List.take_append_eq_append_take, Nat.sub_eq_zero_of_le (le_of_lt hcase)]
      rw [hF1, List.take_append_eq_append_take, Nat.sub_eq_zero_of_le hcA]
      simp
    have hnl : (10 : Nat) ∉ A.take c := fun hmem => hA (List.take_subset _ _ hmem)
    have hd1 : jsonDrain (A.take c) = ([], A.take c) :=
      jsonExtractAll_keep _ _ (jsonExtract_none _ hnl)
    have hjoin : A.take c ++ (F1 ++ F2).drop c = F1 ++ F2 := by
      rw [← htk, List.take_append_drop]
    have hd2 : jsonDrain (F1 ++ F2) = ([A, B], []) := by
      apply jsonExtractAll_twoGood _ _ _ hA hB
      simp [hF1]
      omega
    rw [feedTwoJson, htk]
    simp [hd1, hjoin, hd2]
  · push_neg at hcase
    have htk : (F1 ++ F2).take c = F1 ++ F2.take (c - F1.length) := by
      rw [List.take_append_eq_append_take, List.take_of_length_le hcase]
    have hdp : (F1 ++ F2).drop c = F2.drop (c - F1.length) := by
      rw [List.drop_append_eq_append_drop, List.drop_of_length_le hcase,
        List.nil_append]
    by_cases hc2 : c - F1.length < F2.length
    · have hcB : c - F1.length ≤ B.length := by
        simp only [hF2, List.length_append, List.length_cons, List.length_nil] at hc2
        omega
      have htkB : F2.take (c - F1.length) = B.take (c - F1.length) := by
        rw [hF2, List.take_append_eq_append_take, Nat.sub_eq_zero_of_le hcB]
        simp
      have hnl : (10 : Nat) ∉ B.take (c - F1.length) :=
        fun hmem => hB (List.take_subset _ _ hmem)
      have hd1 : jsonDrain (F1 ++ F2.take (c - F1.length))
          = ([A], B.take (c - F1.length)) := by
        have e1 : F1 ++ F2.take (c - F1.length)
            = A ++ (10 :: B.take (c - F1.length)) := by
          rw [htkB, hF1]
          simp
        rw [jsonDrain, e1]
        apply jsonExtractAll_oneGood _ _ _ hA (jsonExtract_none _ hnl)
        simp
      have hjoin : B.take (c - F1.length) ++ F2.drop (c - F1.length) = F2 := by
        conv_rhs => rw [← List.take_append_drop (c - F1.length) F2]
        rw [htkB]
      have hd2 : jsonDrain F2 = ([B], []) := by
        have e2 : F2 = B ++ (10 :: ([] : List Nat)) := by simp [hF2]
        rw [jsonDrain]
        conv_lhs => rw [e2]
        apply jsonExtractAll_oneGood _ _ _ hB (jsonExtract_none [] (by simp))
        simp [hF2]
      rw [feedTwoJson, htk, hdp]
      simp [hd1, hjoin, hd2]
    · push_neg at hc2
      have htk2 : F2.take (c - F1.length) = F2 := List.take_of_length_le hc2
      have hdp2 : F2.drop (c - F1.length) = [] := List.drop_of_length_le hc2
      have hd1 : jsonDrain (F1 ++ F2) = ([A, B], []) := by
        apply jsonExtractAll_twoGood _ _ _ hA hB
        simp [hF1]
        omega
      rw [feedTwoJson, htk, htk2, hdp, hdp2, hd1]
      simp [jsonDrain, jsonExtractAll_nil]

/-! ## The rendered JSON object contains no newline byte -/

theorem escByte_no_nl (b : Nat) : (10 : Nat) ∉ escByte b := by
  rw [escByte]
  split_ifs with h1 h2 h3 h4 h5 h6 h7 h8
  · simp
  · simp
  · simp
  · simp
  · simp
  · simp
  · simp
  · intro hmem
    have hhex : ∀ x, x < 16 → hexDigit x ≠ 10 := by
      intro x _
      rw [hexDigit]
      split_ifs <;> omega
    simp only [List.mem_cons, List.not_mem_nil] at hmem
    rcases hmem with h | h | h | h | h | h | h
    · omega
    · omega
    · omega
    · omega
    · exact hhex (b / 16) (by omega) h.symm
    · exact hhex (b % 16) (by omega) h.symm
    · exact h
  · intro hmem
    simp only [List.mem_cons, List.not_mem_nil] at hmem
    rcases hmem with h | h
    · omega
    · exact h

theorem escString_no_nl (s : List Nat) : (10 : Nat) ∉ escString s := by
  rw [escString]
  intro hmem
  simp only [List.mem_flatten, List.mem_map] at hmem
  obtain ⟨l, ⟨b, _, rfl⟩, hin⟩ := hmem
  exact escByte_no_nl b hin

theorem jsonQuoted_no_nl (s : List Nat) : (10 : Nat) ∉ jsonQuoted s := by
  rw [jsonQuoted]
  intro hmem
  simp only [List.mem_cons, List.mem_append, List.not_mem_nil] at hmem
  rcases hmem with h | h | h
  · omega
  · exact escString_no_nl s h
  · simp at h

theorem decDigits_no_nl (n : Nat) : (10 : Nat) ∉ decDigits n := by
  intro hmem
  have := decDigits_digit n 10 hmem
  simp [isDigitB] at this

theorem jsonTimestamp_no_nl (n : Nat) : (10 : Nat) ∉ jsonTimestamp n := by
  rw [jsonTimestamp]
  intro hmem
  simp only [List.mem_cons, List.mem_append, List.not_mem_nil] at hmem
  rcases hmem with h | h | h
  · omega
  · exact decDigits_no_nl n h
  · simp at h

theorem jsonCommaSep_no_nl (l : List (List Nat)) (h : ∀ x ∈ l, (10 : Nat) ∉ x) :
    (10 : Nat) ∉ jsonCommaSep l := by
  induction l with
  | nil => simp [jsonCommaSep]
  | cons x t ih =>
    cases t with
    | nil => simpa [jsonCommaSep] using h x (by simp)
    | cons y u =>
      rw [jsonCommaSep_cons _ _ (by simp)]
      intro hmem
      simp only [List.mem_append, List.mem_cons] at hmem
      rcases hmem with hx | h10 | ht
      · exact h x (by simp) hx
      · omega
      · exact ih (fun z hz => h z (by simp [hz])) ht

theorem jsonOptNat_no_nl (o : Option Nat) : (10 : Nat) ∉ jsonOptNat o := by
  cases o with
  | none => decide
  | some n => exact decDigits_no_nl n

theorem jsonOptStr_no_nl (o : Option (List Nat)) : (10 : Nat) ∉ jsonOptStr o := by
  cases o with
  | none => decide
  | some s => exact jsonQuoted_no_nl s

theorem jsonOptStrList_no_nl (o : Option (List (List Nat))) :
    (10 : Nat) ∉ jsonOptStrList o := by
  cases o with
  | none => decide
  | some l =>
    rw [jsonOptStrList, jsonStrList]
    intro hmem
    simp only [List.mem_cons, List.mem_append, List.not_mem_nil] at hmem
    rcases hmem with h | h | h
    · omega
    · exact jsonCommaSep_no_nl _ (by
        intro x hx
        simp only [List.mem_map] at hx
        obtain ⟨s, _, rfl⟩ := hx
        exact jsonQuoted_no_nl s) h
    · simp at h

theorem jsonOptNatList_no_nl (o : Option (List Nat)) :
    (10 : Nat) ∉ jsonOptNatList o := by
  cases o with
  | none => decide
  | some l =>
    rw [jsonOptNatList, jsonNatList]
    intro hmem
    simp only [List.mem_cons, List.mem_append, List.not_mem_nil] at hmem
    rcases hmem with h | h | h
    · omega
    · exact jsonCommaSep_no_nl _ (by
        intro x hx
        simp only [List.mem_map] at hx
        obtain ⟨n, _, rfl⟩ := hx
        exact decDigits_no_nl n) h
    · simp at h

/-- The serialized JSON object never contains the frame delimiter, so framing
is unambiguous. -/
theorem jsonBytes_no_nl (m : ChatMessage) : (10 : Nat) ∉ jsonBytes m := by
  rw [jsonBytes]
  intro hmem
  simp only [List.append_assoc, List.mem_append] at hmem
  rcases hmem with h | h | h | h | h | h | h | h | h | h | h | h | h | h | h | h | h | h | h
    | h | h | h | h
  · exact absurd h (by decide)
  · exact jsonQuoted_no_nl m.username h
  · exact absurd h (by decide)
  · exact jsonQuoted_no_nl m.content h
  · exact absurd h (by decide)
  · exact jsonTimestamp_no_nl m.timestamp h
  · exact absurd h (by decide)
  · exact jsonQuoted_no_nl m.message_type.value h
  · exact absurd h (by decide)
  · exact jsonOptStrList_no_nl m.recipients h
  · exact absurd h (by decide)
  · exact jsonOptNat_no_nl m.message_id h
  · exact absurd h (by decide)
  · exact jsonOptNat_no_nl m.fetch_count h
  · exact absurd h (by decide)
  · exact jsonOptNatList_no_nl m.message_ids h
  · exact absurd h (by decide)
  · exact jsonOptStr_no_nl m.password h
  · exact absurd h (by decide)
  · exact jsonOptStrList_no_nl m.active_users h
  · exact absurd h (by decide)
  · exact jsonOptNat_no_nl m.unread_count h
  · exact absurd h (by decide)

/-! ## Durable store (`Database`, src/database.py)

The SQLite store is modelled as in-memory tables: lists of rows in rowid
order.  A SQL `WHERE` clause is `List.filter`, `ORDER BY timestamp ASC` is a
sort (insertion sort here; SQL leaves the relative order of equal keys
unspecified, the model fixes one order), `LIMIT n` is `List.take n`. -/

/-- A row of the `users` table.  Only the `username` column takes part in the
operations modelled here; the password hash and creation time are omitted. -/
structure UserRow where
  username : List Nat
deriving DecidableEq, Repr

/-- A row of the `messages` table. -/
structure MessageRow where
  id : Nat
  sender : List Nat
  recipient : List Nat
  content : List Nat
  timestamp : Nat
  message_type : MessageType
  read_status : Bool
  delivered : Bool
deriving DecidableEq, Repr

/-- The database state: the two tables. -/
structure DB where
  users : List UserRow
  messages : List MessageRow
deriving DecidableEq, Repr

/-- The conversation clause shared by `delete_messages` and
`get_messages_between_users`:
`(sender = a AND recipient = b) OR (sender = b AND recipient = a)`. -/
def inConversation (a b : List Nat) (m : MessageRow) : Bool :=
  (m.sender == a && m.recipient == b) || (m.sender == b && m.recipient == a)

/-- The `WHERE` clause of both statements of `delete_messages`: the row id is
among the requested ids and the row lies in the caller/recipient
conversation. -/
def deleteHit (message_ids : List Nat) (username recipient : List Nat)
    (m : MessageRow) : Bool :=
  message_ids.contains m.id && inConversation username recipient m

/-- `Database.delete_messages` (database.py lines 346-393): first
`SELECT recipient, read_status = FALSE` over the matching rows, then
`DELETE` them.  Returns the new store, the delete `rowcount` and the
`(recipient, was_unread)` list. -/
def delete_messages (message_ids : List Nat) (username recipient : List Nat)
    (db : DB) : DB × Nat × List (List Nat × Bool) :=
  let hit := deleteHit message_ids username recipient
  let deleted_info := (db.messages.filter hit).map (fun m => (m.recipient, !m.read_status))
  ({ db with messages := db.messages.filter (fun m => !(hit m)) },
   (db.messages.filter hit).length, deleted_info)

/-- `Database.delete_user` (database.py lines 452-484): delete every message
whose sender or recipient is the user, then the user row; returns the new
store and whether a user row was deleted (`cursor.rowcount > 0`). -/
def delete_user (username : List Nat) (db : DB) : DB × Bool :=
  ({ users := db.users.filter (fun u => !(u.username == username)),
     messages := db.messages.filter
       (fun m => !(m.sender == username || m.recipient == username)) },
   db.users.any (fun u => u.username == username))

/-- `Database.get_unread_count` (database.py lines 326-344). -/
def get_unread_count (recipient : List Nat) (db : DB) : Nat :=
  (db.messages.filter (fun m => m.recipient == recipient && !m.read_status)).length

/-- Insert a row into a timestamp-sorted list. -/
def insertByTs (m : MessageRow) : List MessageRow → List MessageRow
  | [] => [m]
  | x :: t => if m.timestamp < x.timestamp then m :: x :: t else x :: insertByTs m t

/-- `ORDER BY timestamp ASC`. -/
def orderByTimestamp : List MessageRow → List MessageRow
  | [] => []
  | x :: t => insertByTs x (orderByTimestamp t)

/-- `Database.get_unread_messages` (database.py lines 230-269): unread rows
addressed to the recipient, oldest first; the `LIMIT` clause is appended
only when `limit` is truthy (`if limit:` — `None` and `0` add no limit).
Each row surfaces as a `ChatMessage` with the row's stored type. -/
def get_unread_messages (recipient : List Nat) (limit : Option Nat) (db : DB) :
    List ChatMessage :=
  let rows := orderByTimestamp
    (db.messages.filter (fun m => m.recipient == recipient && !m.read_status))
  let rows := match limit with
    | none => rows
    | some 0 => rows
    | some (n+1) => rows.take (n+1)
  rows.map (fun r =>
    { message_id := some r.id, username := r.sender, content := r.content,
      timestamp := r.timestamp, message_type := r.message_type,
      recipients := some [r.recipient] })

/-- `Database.get_messages_between_users` (database.py lines 405-450): both
directions of the conversation, oldest first, always limited; every row
surfaces with `message_type=DM`. -/
def get_messages_between_users (user1 user2 : List Nat) (limit : Nat) (db : DB) :
    List ChatMessage :=
  let rows := orderByTimestamp (db.messages.filter (inConversation user1 user2))
  (rows.take limit).map (fun r =>
    { username := r.sender, content := r.content,
      message_type := MessageType.DM, message_id := some r.id,
      recipients := some [r.recipient], timestamp := r.timestamp })

/-! ## History fetch (`ChatServer.handle_fetch_request`, src/server.py) -/

/-- The `if not message.fetch_count: message.fetch_count = 10` default
(server.py lines 196-197): `None` and `0` are falsy. -/
def effectiveFetchCount : Option Nat → Nat
  | none => 10
  | some 0 => 10
  | some (n+1) => n+1

/-- `ChatServer.handle_fetch_request` (server.py lines 183-221), query
selection: the history messages the handler goes on to send.  The
two-recipients branch requires `message.recipients` truthy with length
exactly 2; any other shape falls to the unread query for the caller. -/
def handle_fetch_request (message : ChatMessage) (db : DB) : List ChatMessage :=
  let fetch_count := effectiveFetchCount message.fetch_count
  match message.recipients with
  | some (user1 :: user2 :: []) => get_messages_between_users user1 user2 fetch_count db
  | _ => get_unread_messages message.username (some fetch_count) db

/-! ## Message deletion (`ChatServer.handle_delete_messages`, src/server.py) -/

/-- The `unread_decrements` dict of `handle_delete_messages` (server.py lines
287-298), built by the source's fold over `deleted_info`; a dict is a
function with default 0. -/
def unreadDecrementsFrom (acc : List Nat → Nat) :
    List (List Nat × Bool) → List Nat → Nat
  | [] => acc
  | p :: t =>
    unreadDecrementsFrom
      (if p.2 then (fun u => if u = p.1 then acc u + 1 else acc u) else acc) t

/-- `unread_decrements.get(user, 0)` after processing all of `deleted_info`. -/
def unread_decrements (deleted_info : List (List Nat × Bool)) : List Nat → Nat :=
  unreadDecrementsFrom (fun _ => 0) deleted_info

/-- `ChatServer.handle_delete_messages` (server.py lines 263-313).  `online`
is the key set of `self.usernames`; `now` stands for the timestamp default a
notification `ChatMessage` receives.  Returns the new store and the
`(target, notification)` pairs sent, targets in first-occurrence order (the
source iterates a Python set, whose order is unspecified). -/
def handle_delete_messages (message : ChatMessage) (online : List (List Nat))
    (now : Nat) (db : DB) : DB × List (List Nat × ChatMessage) :=
  match message.message_ids, message.recipients with
  | some (i0 :: ir), some (r0 :: _) =>
    let res := delete_messages (i0 :: ir) message.username r0 db
    let deleted_info := res.2.2
    let users_to_notify := (message.username :: deleted_info.map Prod.fst).dedup
    (res.1,
     (users_to_notify.filter (fun u => online.contains u)).map (fun u =>
       (u, { username := message.username, content := [], timestamp := now,
             message_type := MessageType.DELETE_NOTIFICATION,
             message_ids := message.message_ids,
             unread_count := some (unread_decrements deleted_info u) })))
  | _, _ => (db, [])

/-- The `(recipient, was_unread)` rows `delete_messages` reports for a
request. -/
def deletedInfo (ids : List Nat) (username recipient : List Nat) (db : DB) :
    List (List Nat × Bool) :=
  (delete_messages ids username recipient db).2.2

theorem unreadDecrementsFrom_eq (info : List (List Nat × Bool)) :
    ∀ (acc : List Nat → Nat) (u : List Nat),
      unreadDecrementsFrom acc info u =
        acc u + (info.filter (fun p => p.2 && decide (u = p.1))).length := by
  induction info with
  | nil => intro acc u; simp [unreadDecrementsFrom]
  | cons p t ih =>
    intro acc u
    rw [unreadDecrementsFrom, ih, List.filter_cons]
    by_cases hw : p.2 = true
    · by_cases he : u = p.1
      · simp [hw, he]
        omega
      · simp [hw, he]
    · simp [hw]

/-- `unread_decrements.get(user, 0)` counts the deleted rows that were unread
and addressed to that user. -/
theorem unread_decrements_eq (info : List (List Nat × Bool)) (u : List Nat) :
    unread_decrements info u =
      (info.filter (fun p => p.2 && decide (u = p.1))).length := by
  rw [unread_decrements, unreadDecrementsFrom_eq]
  simp

/-- Deserialization of a serialized payload behind an arbitrary header byte:
only the `message_type` of the result depends on the header, through the
`REVERSE_MESSAGE_TYPES.get(..., CHAT)` fallback. -/
theorem cwpDeserialize_withHeader (m : ChatMessage) (hb : Nat)
    (hs : CwpSerializable m) (hf : CwpFaithful m) :
    cwpDeserializeMessage (hb ::
      (beBytes 4 (cwpPayload m).length ++ cwpPayload m)) =
      some { m with message_type := (msgTypeOfByte hb).getD MessageType.CHAT } := by
  obtain ⟨hc, hid32, hu32, hts64, hrc256, hrs32, hfc32, hpw32, hac256, has32, hun32, hpl32⟩ := hs
  obtain ⟨hid, hrec, hfc, hpw, hau, hun, hmi⟩ := hf
  have hdrop : (hb ::
      (beBytes 4 (cwpPayload m).length ++ cwpPayload m)).drop 5 = cwpPayload m := by
    have hl := beBytes_length 4 (cwpPayload m).length
    rw [List.drop_succ_cons, List.drop_left' hl]
  have hflat : cwpPayload m =
      beBytes 4 (m.message_id.getD 0) ++
      (beBytes 4 m.username.length ++
      (m.username ++
      (beBytes 4 m.content.length ++
      (m.content ++
      (beBytes 8 m.timestamp ++
      ((m.recipients.getD []).length ::
      (strListBytes (m.recipients.getD []) ++
      (beBytes 4 (m.fetch_count.getD 0) ++
      (beBytes 4 (m.password.getD []).length ++
      (m.password.getD [] ++
      ((m.active_users.getD []).length ::
      (strListBytes (m.active_users.getD []) ++
      beBytes 4 (m.unread_count.getD 0))))))))))))) := by
    simp [cwpPayload, List.append_assoc]
  have hdropFlat := hdrop.trans hflat
  have hcl : m.content.length < 4294967296 := by omega
  have r1 : ∀ r, readBe 4 (beBytes 4 (m.message_id.getD 0) ++ r)
      = some (m.message_id.getD 0, r) := fun r => readBe_append4 _ r hid32
  have r2 : ∀ r, deserializeString (beBytes 4 m.username.length ++ (m.username ++ r))
      = some (m.username, r) := fun r => deserializeString_append _ r hu32
  have r3 : ∀ r, deserializeString (beBytes 4 m.content.length ++ (m.content ++ r))
      = some (m.content, r) := fun r => deserializeString_append _ r hcl
  have r4 : ∀ r, readBe 8 (beBytes 8 m.timestamp ++ r)
      = some (m.timestamp, r) := fun r => readBe_append8 _ r hts64
  have r6 : ∀ r, deserializeStrings (m.recipients.getD []).length
      (strListBytes (m.recipients.getD []) ++ r) = some (m.recipients.getD [], r) :=
    fun r => deserializeStrings_append _ r hrs32
  have r7 : ∀ r, readBe 4 (beBytes 4 (m.fetch_count.getD 0) ++ r)
      = some (m.fetch_count.getD 0, r) := fun r => readBe_append4 _ r hfc32
  have r8 : ∀ r, deserializeString
      (beBytes 4 (m.password.getD []).length ++ (m.password.getD [] ++ r))
      = some (m.password.getD [], r) := fun r => deserializeString_append _ r hpw32
  have r10 : ∀ r, deserializeStrings (m.active_users.getD []).length
      (strListBytes (m.active_users.getD []) ++ r) = some (m.active_users.getD [], r) :=
    fun r => deserializeStrings_append _ r has32
  have r11 : readBe 4 (beBytes 4 (m.unread_count.getD 0))
      = some (m.unread_count.getD 0, []) := readBe_final _ hun32
  rw [cwpDeserializeMessage]
  simp only [List.head?_cons, hdropFlat,
    r1, r2, r3, r4, readBe_one, r6, r7, r8, r10, r11]
  have e1 : (if m.recipients.getD [] = [] then none else some (m.recipients.getD []))
      = m.recipients := by
    cases h' : m.recipients with
    | none => simp
    | some l =>
      have hne : l ≠ [] := fun he => hrec (by rw [h', he])
      simp [hne]
  have e2 : (if m.message_id.getD 0 = 0 then none else some (m.message_id.getD 0))
      = m.message_id := by
    cases h' : m.message_id with
    | none => simp
    | some n =>
      have hne : n ≠ 0 := fun he => hid (by rw [h', he])
      simp [hne]
  have e3 : (if m.fetch_count.getD 0 = 0 then none else some (m.fetch_count.getD 0))
      = m.fetch_count := by
    cases h' : m.fetch_count with
    | none => simp
    | some n =>
      have hne : n ≠ 0 := fun he => hfc (by rw [h', he])
      simp [hne]
  have e4 : (if m.password.getD [] = [] then none else some (m.password.getD []))
      = m.password := by
    cases h' : m.password with
    | none => simp
    | some l =>
      have hne : l ≠ [] := fun he => hpw (by rw [h', he])
      simp [hne]
  have e5 : (if m.active_users.getD [] = [] then none else some (m.active_users.getD []))
      = m.active_users := by
    cases h' : m.active_users with
    | none => simp
    | some l =>
      have hne : l ≠ [] := fun he => hau (by rw [h', he])
      simp [hne]
  have e6 : (if m.unread_count.getD 0 = 0 then none else some (m.unread_count.getD 0))
      = m.unread_count := by
    cases h' : m.unread_count with
    | none => simp
    | some n =>
      have hne : n ≠ 0 := fun he => hun (by rw [h', he])
      simp [hne]
  rw [e1, e2, e3, e4, e5, e6, ← hmi]

/-! ## Session registry (`ChatServer`, src/server.py)

`clients : Dict[socket, str]`, `usernames : Dict[str, socket]` and
`client_buffers : Dict[socket, bytes]`, modelled as association lists keyed
by socket ids (`Nat`); dict lookup, assignment and `del` are `lookupAL`,
`insertAL` and `removeKey`. -/

def lookupAL {κ β : Type} [DecidableEq κ] (k : κ) : List (κ × β) → Option β
  | [] => none
  | p :: t => if p.1 = k then some p.2 else lookupAL k t

def removeKey {κ β : Type} [DecidableEq κ] (k : κ) (l : List (κ × β)) :
    List (κ × β) :=
  l.filter (fun p => decide (p.1 ≠ k))

def insertAL {κ β : Type} [DecidableEq κ] (k : κ) (v : β) (l : List (κ × β)) :
    List (κ × β) :=
  (k, v) :: removeKey k l

theorem lookupAL_removeKey_self {κ β : Type} [DecidableEq κ] (k : κ)
    (l : List (κ × β)) : lookupAL k (removeKey k l) = none := by
  induction l with
  | nil => rfl
  | cons p t ih =>
    by_cases h : p.1 = k
    · simpa [removeKey, List.filter_cons, h] using ih
    · simpa [removeKey, List.filter_cons, lookupAL, h] using ih

theorem lookupAL_removeKey_other {κ β : Type} [DecidableEq κ] {j k : κ}
    (l : List (κ × β)) (h : j ≠ k) : lookupAL j (removeKey k l) = lookupAL j l := by
  induction l with
  | nil => rfl
  | cons p t ih =>
    by_cases hp : p.1 = k
    · have h1 : removeKey k (p :: t) = removeKey k t := by
        simp [removeKey, List.filter_cons, hp]
      have hpj : ¬p.1 = j := fun e => h (e.symm.trans hp)
      rw [h1, lookupAL, if_neg hpj]
      exact ih
    · have h1 : removeKey k (p :: t) = p :: removeKey k t := by
        simp [removeKey, List.filter_cons, hp]
      rw [h1, lookupAL, lookupAL]
      by_cases hj : p.1 = j
      · rw [if_pos hj, if_pos hj]
      · rw [if_neg hj, if_neg hj]
        exact ih

theorem lookupAL_insert_self {κ β : Type} [DecidableEq κ] (k : κ) (v : β)
    (l : List (κ × β)) : lookupAL k (insertAL k v l) = some v := by
  simp [insertAL, lookupAL]

theorem lookupAL_insert_other {κ β : Type} [DecidableEq κ] {j k : κ} (v : β)
    (l : List (κ × β)) (h : j ≠ k) :
    lookupAL j (insertAL k v l) = lookupAL j l := by
  have : k ≠ j := fun e => h e.symm
  rw [insertAL, lookupAL]
  simp only [this, if_false]
  exact lookupAL_removeKey_other l h

/-- The registry part of the server state: the two session maps and the
per-connection receive buffers. -/
structure ServerState where
  clients : List (Nat × List Nat)
  usernames : List (List Nat × Nat)
  client_buffers : List (Nat × List Nat)
deriving DecidableEq, Repr

/-- Server.py lines 530-534: a successful login binds the socket to the
username in both maps (under the lock). -/
def loginBind (sock : Nat) (username : List Nat) (st : ServerState) :
    ServerState :=
  { st with clients := insertAL sock username st.clients,
            usernames := insertAL username sock st.usernames }

/-- `ChatServer.remove_client` (server.py lines 637-677), registry part:
under the lock, if the socket is a known client, drop it from `clients`,
then its username from `usernames` and its buffer from `client_buffers`
(each behind its own membership test, as in the source); afterwards a logout
is broadcast when the found username is truthy and the flag is set.  The
second component is the broadcast username (`none`: no broadcast); the
socket shutdown/close at the end touches no registry state. -/
def remove_client (client_socket : Nat) (send_logout_message : Bool)
    (st : ServerState) : ServerState × Option (List Nat) :=
  match lookupAL client_socket st.clients with
  | none => (st, none)
  | some username =>
    let st1 := { st with clients := removeKey client_socket st.clients }
    let st2 := if (lookupAL username st1.usernames).isSome then
        { st1 with usernames := removeKey username st1.usernames } else st1
    let st3 := if (lookupAL client_socket st2.client_buffers).isSome then
        { st2 with client_buffers := removeKey client_socket st2.client_buffers }
      else st2
    (st3, if send_logout_message && !(username == []) then some username else none)

/-- The registry operations a connection thread performs, each step one
lock-protected critical section: registering or refilling a receive buffer
(lines 383, 406), a successful login (lines 530-534; the socket is pre-auth
— its handler binds at most once per connection — and line 519 has rejected
a username that is already logged in), and `remove_client`. -/
inductive RegStep : ServerState → ServerState → Prop
  | buffer {st : ServerState} (sock : Nat) (b : List Nat) :
      RegStep st { st with client_buffers := insertAL sock b st.client_buffers }
  | login {st : ServerState} (sock : Nat) (username : List Nat)
      (hsock : lookupAL sock st.clients = none)
      (huser : lookupAL username st.usernames = none) :
      RegStep st (loginBind sock username st)
  | disconnect {st : ServerState} (sock : Nat) (flag : Bool) :
      RegStep st (remove_client sock flag st).1

/-- States reachable from a fresh server (all three dicts empty) through the
registry operations. -/
inductive ReachableState : ServerState → Prop
  | init : ReachableState ⟨[], [], []⟩
  | step {st st' : ServerState} :
      ReachableState st → RegStep st st' → ReachableState st'

/-- The two session maps are mutual inverses: socket `s` is bound to
username `u` in `clients` exactly when `u` is bound to `s` in `usernames`
(so each username is mapped from exactly one socket, and conversely). -/
def RegistryInv (st : ServerState) : Prop :=
  ∀ sock username, lookupAL sock st.clients = some username ↔
    lookupAL username st.usernames = some sock

theorem remove_client_found (sock : Nat) (flag : Bool) (st : ServerState)
    (u : List Nat) (hcl : lookupAL sock st.clients = some u) :
    ((remove_client sock flag st).1).clients = removeKey sock st.clients ∧
    ((remove_client sock flag st).1).usernames =
      (if (lookupAL u st.usernames).isSome then removeKey u st.usernames
       else st.usernames) := by
  simp only [remove_client, hcl]
  constructor
  · split
    · split <;> rfl
    · split <;> rfl
  · split
    · split <;> rfl
    · split <;> rfl

theorem regStep_preserves {st st' : ServerState} (hinv : RegistryInv st)
    (hstep : RegStep st st') : RegistryInv st' := by
  cases hstep with
  | buffer sock b => exact hinv
  | login sock username hsock huser =>
    intro s u
    show lookupAL s (insertAL sock username st.clients) = some u ↔
      lookupAL u (insertAL username sock st.usernames) = some s
    by_cases hs : s = sock
    · subst hs
      rw [lookupAL_insert_self]
      by_cases hu : u = username
      · subst hu
        rw [lookupAL_insert_self]
        simp
      · rw [lookupAL_insert_other _ _ hu]
        constructor
        · intro h
          exact absurd (Option.some.inj h).symm hu
        · intro h
          have h2 := (hinv s u).mpr h
          rw [hsock] at h2
          exact absurd h2 (by simp)
    · rw [lookupAL_insert_other _ _ hs]
      by_cases hu : u = username
      · subst hu
        rw [lookupAL_insert_self]
        constructor
        · intro h
          have h2 := (hinv s u).mp h
          rw [huser] at h2
          exact absurd h2 (by simp)
        · intro h
          exact absurd (Option.some.inj h) (fun e => hs e.symm)
      · rw [lookupAL_insert_other _ _ hu]
        exact hinv s u
  | disconnect sock flag =>
    intro s u
    cases hcl : lookupAL sock st.clients with
    | none =>
      have h1 : (remove_client sock flag st).1 = st := by
        simp [remove_client, hcl]
      rw [h1]
      exact hinv s u
    | some w =>
      have husr : lookupAL w st.usernames = some sock := (hinv sock w).mp hcl
      obtain ⟨hc, hu2⟩ := remove_client_found sock flag st w hcl
      rw [husr] at hu2
      simp only [Option.isSome_some, if_true] at hu2
      rw [hc, hu2]
      constructor
      · intro h
        by_cases hs : s = sock
        · subst hs
          rw [lookupAL_removeKey_self] at h
          exact absurd h (by simp)
        · rw [lookupAL_removeKey_other _ hs] at h
          by_cases hw : u = w
          · subst hw
            have h2 := (hinv s u).mp h
            rw [husr] at h2
            exact absurd (Option.some.inj h2).symm hs
          · rw [lookupAL_removeKey_other _ hw]
            exact (hinv s u).mp h
      · intro h
        by_cases hw : u = w
        · subst hw
          rw [lookupAL_removeKey_self] at h
          exact absurd h (by simp)
        · rw [lookupAL_removeKey_other _ hw] at h
          have h2 := (hinv s u).mpr h
          by_cases hs : s = sock
          · subst hs
            rw [hcl] at h2
            exact absurd (Option.some.inj h2) (fun e => hw e.symm)
          · rw [lookupAL_removeKey_other _ hs]
            exact h2

/-! ## Pre-authentication dispatch (`ChatServer.handle_client`, src/server.py) -/

/-- `SystemMessage.LOGIN_REQUIRED` (schemas.py line 90). -/
def LOGIN_REQUIRED : List Nat := asciiOf "Please login or register first"

/-- Server.py lines 417-431: for a connection whose loop-local `username` is
still `None`, a request whose kind is outside `[LOGIN, REGISTER]` is
answered with an ERROR response and the handler returns, ending the session
loop; LOGIN and REGISTER fall through to their handling (no response is
produced at this point and the loop continues).  Result: the server state
(untouched on this path), the response sent here if any, and whether the
session loop terminates. -/
def preAuthDispatch (mt : MessageType) (st : ServerState) :
    ServerState × Option ServerResponse × Bool :=
  if mt = MessageType.LOGIN ∨ mt = MessageType.REGISTER then (st, none, false)
  else
    (st, some { status := Status.ERROR, message := LOGIN_REQUIRED, data := none },
     true)

/-! ## Concrete sample inputs used by the claim witnesses and counterexamples -/

/-- A DELETE request: ids `[1, 2]`, one recipient. -/
def delReqC3 : ChatMessage :=
  { username := asciiOf "alice", content := [], timestamp := 0,
    message_type := MessageType.DELETE,
    recipients := some [asciiOf "bob"], message_ids := some [1, 2] }

/-- A store with one unread message, id 1, alice → bob. -/
def dbC3 : DB :=
  { users := [{ username := asciiOf "alice" }, { username := asciiOf "bob" }],
    messages := [{ id := 1, sender := asciiOf "alice", recipient := asciiOf "bob",
                   content := asciiOf "x", timestamp := 5,
                   message_type := MessageType.DM,
                   read_status := false, delivered := false }] }

/-- A FETCH request for the alice/bob conversation with no `fetch_count`. -/
def fetchReqC6 : ChatMessage :=
  { username := asciiOf "alice", content := [], timestamp := 0,
    message_type := MessageType.FETCH,
    recipients := some [asciiOf "alice", asciiOf "bob"] }

/-- A registry with one live session (socket 1, alice). -/
def stC10 : ServerState :=
  { clients := [(1, asciiOf "alice")],
    usernames := [(asciiOf "alice", 1)],
    client_buffers := [(1, [])] }

/-- A small well-formed message. -/
def mA : ChatMessage :=
  { username := asciiOf "a", content := asciiOf "hi", timestamp := 1,
    message_type := MessageType.CHAT }

/-- A second small well-formed message of another kind. -/
def mB : ChatMessage :=
  { username := asciiOf "b", content := [], timestamp := 2,
    message_type := MessageType.LOGOUT }

/-- A message exercising every optional field the codecs preserve. -/
def wmC1 : ChatMessage :=
  { username := asciiOf "alice", content := asciiOf "hi", timestamp := 7,
    message_type := MessageType.DM,
    recipients := some [asciiOf "bob"], message_id := some 3,
    fetch_count := some 2, password := some (asciiOf "pw"),
    active_users := some [asciiOf "alice", asciiOf "bob"],
    unread_count := some 1 }

/-! ## The claims -/

/-- Counterexample to claim C1: the binary codec does not roundtrip every
well-formed request.  `serialize_message` writes no field for `message_ids`
and `deserialize_message` never populates it, so a DELETE request with
`message_ids=[1,2]` comes back without them. -/
theorem C1_counterexample :
    (cwpSerializeMessage delReqC3).bind cwpDeserializeMessage ≠ some delReqC3 := by
  decide

/-- claim C1 (amended): under the JSON codec every request whose content is
within the 1MB bound roundtrips; under the binary codec the roundtrip holds
on requests whose fields fit the packed widths (`CwpSerializable`) and that
avoid the dropped or sentinel-coded values (`CwpFaithful`: no `message_ids`,
no empty optional string or list field, no zero optional counter — the codec
decodes the sentinels `0`, `""`, `[]` back to `None`). -/
theorem C1_roundtrip (m : ChatMessage) :
    (m.content.length ≤ 1000000 →
      (jsonSerializeMessage m).bind jsonDeserializeMessage = some m) ∧
    (CwpSerializable m → CwpFaithful m →
      (cwpSerializeMessage m).bind cwpDeserializeMessage = some m) :=
  ⟨jsonRoundtrip m, cwpRoundtrip m⟩

/-- Witness for claim C1: the JSON roundtrip at the very request the binary
codec loses (`message_ids=[1,2]`), and the binary roundtrip at a message
exercising all preserved fields. -/
theorem C1_roundtrip_witness :
    (jsonSerializeMessage delReqC3).bind jsonDeserializeMessage = some delReqC3 ∧
    (cwpSerializeMessage wmC1).bind cwpDeserializeMessage = some wmC1 :=
  ⟨(C1_roundtrip delReqC3).1 (by decide),
   (C1_roundtrip wmC1).2 (by unfold CwpSerializable; decide)
     (by unfold CwpFaithful; decide)⟩

/-- Counterexample to claim C2: on an invalid kind byte the extractor does
not skip past the 5-byte header — `extract_message` returns `buffer[1:]`,
advancing one byte only (protocol.py line 703). -/
theorem C2_counterexample :
    cwpExtractMessage [255, 0, 0, 0, 0] ≠
      (none, List.drop 5 [255, 0, 0, 0, 0]) := by
  decide

/-- claim C2 (amended): with at least 5 buffered bytes, an invalid kind byte
makes `extract_message` drop exactly one byte (resynchronising byte by
byte), while a valid kind byte whose 4-byte big-endian length field exceeds
1,000,000 drops the whole 5-byte header. -/
theorem C2_extract_bad_header (b : List Nat) (h5 : 5 ≤ b.length) :
    (msgTypeOfByte b.headI = none → cwpExtractMessage b = (none, b.drop 1)) ∧
    (∀ mt, msgTypeOfByte b.headI = some mt →
      1000000 < fromBe ((b.drop 1).take 4) →
      cwpExtractMessage b = (none, b.drop 5)) := by
  have hn5 : ¬(b.length < 5) := by omega
  constructor
  · intro h
    simp only [cwpExtractMessage, if_neg hn5]
    rw [if_pos (by rw [h]; rfl)]
  · intro mt hmt hlen
    simp only [cwpExtractMessage, if_neg hn5]
    rw [if_neg (by rw [hmt]; simp), if_pos hlen]

/-- Witness for claim C2: an invalid kind byte drops one byte; a valid kind
byte with an oversized length field drops the header. -/
theorem C2_extract_bad_header_witness :
    cwpExtractMessage [255, 0, 0, 0, 0] = (none, [0, 0, 0, 0]) ∧
    cwpExtractMessage [0, 255, 255, 255, 255] = (none, []) :=
  ⟨(C2_extract_bad_header [255, 0, 0, 0, 0] (by decide)).1 (by decide),
   (C2_extract_bad_header [0, 255, 255, 255, 255] (by decide)).2
     MessageType.SERVER_RESPONSE (by decide) (by decide)⟩

/-- Counterexample to claim C3: the notifications do not carry "the ids of
the deleted rows".  The store holds only row 1, the request asks to delete
`[1, 2]`, exactly one row is deleted, yet both notified users receive
`message_ids=[1, 2]` — the handler copies `message.message_ids` (server.py
line 310), the requested list, not the deleted one. -/
theorem C3_counterexample :
    (handle_delete_messages delReqC3 [asciiOf "alice", asciiOf "bob"] 0 dbC3).2.map
        (fun p => (p.1, p.2.message_ids)) =
      [(asciiOf "alice", some [1, 2]), (asciiOf "bob", some [1, 2])] ∧
    (delete_messages [1, 2] (asciiOf "alice") (asciiOf "bob") dbC3).2.1 = 1 := by
  decide

/-- claim C3 (amended): for a DELETE request with non-empty `message_ids`
and `recipients`, the handler stores the result of `delete_messages`, sends
a DELETE_NOTIFICATION exactly to the online members of
`{caller} ∪ {recipient of each deleted row}`, and each notification carries
`username=caller`, `message_ids=the REQUESTED id list` (not the ids actually
deleted), and `unread_count=the number of deleted rows that were unread and
addressed to that specific target`. -/
theorem C3_delete_notifications (message : ChatMessage) (online : List (List Nat))
    (now : Nat) (db : DB) (ids : List Nat) (r0 : List Nat)
    (rrest : List (List Nat))
    (hids : message.message_ids = some ids) (hne : ids ≠ [])
    (hrec : message.recipients = some (r0 :: rrest)) :
    (handle_delete_messages message online now db).1 =
        (delete_messages ids message.username r0 db).1 ∧
    (∀ u, (∃ n, (u, n) ∈ (handle_delete_messages message online now db).2) ↔
        (u ∈ online ∧ (u = message.username ∨
          u ∈ (deletedInfo ids message.username r0 db).map Prod.fst))) ∧
    (∀ u n, (u, n) ∈ (handle_delete_messages message online now db).2 →
        n = { username := message.username, content := [], timestamp := now,
              message_type := MessageType.DELETE_NOTIFICATION,
              message_ids := some ids,
              unread_count := some (((deletedInfo ids message.username r0 db).filter
                (fun p => p.2 && decide (u = p.1))).length) }) := by
  obtain ⟨i0, ir, rfl⟩ : ∃ i0 ir, ids = i0 :: ir := by
    cases ids with
    | nil => exact absurd rfl hne
    | cons a t => exact ⟨a, t, rfl⟩
  have hsent : (handle_delete_messages message online now db).2 =
      ((message.username ::
        (deletedInfo (i0 :: ir) message.username r0 db).map Prod.fst).dedup.filter
          (fun u => online.contains u)).map (fun u =>
        (u, { username := message.username, content := [], timestamp := now,
              message_type := MessageType.DELETE_NOTIFICATION,
              message_ids := message.message_ids,
              unread_count := some (unread_decrements
                (deletedInfo (i0 :: ir) message.username r0 db) u) })) := by
    simp only [handle_delete_messages, hids, hrec, deletedInfo]
  have hfst : (handle_delete_messages message online now db).1 =
      (delete_messages (i0 :: ir) message.username r0 db).1 := by
    simp only [handle_delete_messages, hids, hrec]
  refine ⟨hfst, ?_, ?_⟩
  · intro u
    rw [hsent]
    constructor
    · rintro ⟨n, hn⟩
      rw [List.mem_map] at hn
      obtain ⟨x, hx, hxe⟩ := hn
      rw [Prod.mk.injEq] at hxe
      obtain ⟨rfl, -⟩ := hxe
      rw [List.mem_filter] at hx
      refine ⟨by simpa using hx.2, ?_⟩
      have hmem := List.mem_dedup.mp hx.1
      simpa using hmem
    · rintro ⟨honline, hset⟩
      have hmem : u ∈ ((message.username ::
          (deletedInfo (i0 :: ir) message.username r0 db).map Prod.fst).dedup.filter
            (fun u => online.contains u)) := by
        rw [List.mem_filter]
        refine ⟨?_, by simpa using honline⟩
        rw [List.mem_dedup]
        exact List.mem_cons.mpr hset
      exact ⟨{ username := message.username, content := [], timestamp := now,
               message_type := MessageType.DELETE_NOTIFICATION,
               message_ids := message.message_ids,
               unread_count := some (unread_decrements
                 (deletedInfo (i0 :: ir) message.username r0 db) u) },
             List.mem_map_of_mem _ hmem⟩
  · intro u n hn
    rw [hsent, List.mem_map] at hn
    obtain ⟨x, hx, hxe⟩ := hn
    rw [Prod.mk.injEq] at hxe
    obtain ⟨rfl, hrec2⟩ := hxe
    rw [← hrec2, hids, unread_decrements_eq]

/-- Witness for claim C3: the handler's store update matches
`delete_messages`, and on the sample store everything in the conversation is
gone. -/
theorem C3_delete_notifications_witness :
    (handle_delete_messages delReqC3 [asciiOf "alice", asciiOf "bob"] 0 dbC3).1 =
      (delete_messages [1, 2] (asciiOf "alice") (asciiOf "bob") dbC3).1 ∧
    (delete_messages [1, 2] (asciiOf "alice") (asciiOf "bob") dbC3).1.messages = [] :=
  ⟨(C3_delete_notifications delReqC3 [asciiOf "alice", asciiOf "bob"] 0 dbC3
      [1, 2] (asciiOf "bob") [] rfl (by decide) rfl).1,
   by decide⟩

/-- claim C4: splitting the concatenation of two encoded frames at any byte
position and feeding the two halves sequentially through the extraction loop
yields exactly the two frames, in order, under both codecs (for the binary
codec: fields within the packed widths and payload within the 1MB extractor
bound). -/
theorem C4_framing (m1 m2 : ChatMessage) (c : Nat) :
    (∀ A B, jsonSerializeMessage m1 = some A → jsonSerializeMessage m2 = some B →
      feedTwoJson ((jsonFrameMessage A ++ jsonFrameMessage B).take c)
          ((jsonFrameMessage A ++ jsonFrameMessage B).drop c) = ([A, B], [])) ∧
    (∀ F1 F2, CwpSerializable m1 → CwpSerializable m2 →
      (cwpPayload m1).length ≤ 1000000 → (cwpPayload m2).length ≤ 1000000 →
      cwpSerializeMessage m1 = some F1 → cwpSerializeMessage m2 = some F2 →
      feedTwoCwp ((F1 ++ F2).take c) ((F1 ++ F2).drop c) = ([F1, F2], [])) := by
  constructor
  · intro A B hA hB
    have hA' : A = jsonBytes m1 := by
      rw [jsonSerializeMessage] at hA
      by_cases h : 1000000 < m1.content.length
      · rw [if_pos h] at hA; exact absurd hA (by simp)
      · rw [if_neg h] at hA; exact (Option.some.inj hA).symm
    have hB' : B = jsonBytes m2 := by
      rw [jsonSerializeMessage] at hB
      by_cases h : 1000000 < m2.content.length
      · rw [if_pos h] at hB; exact absurd hB (by simp)
      · rw [if_neg h] at hB; exact (Option.some.inj hB).symm
    rw [hA', hB', jsonFrameMessage, jsonFrameMessage]
    exact feedTwoJson_split _ _ c (jsonBytes_no_nl m1) (jsonBytes_no_nl m2)
  · intro F1 F2 hs1 hs2 hb1 hb2 hF1 hF2
    rw [cwpSerializeMessage_eq m1 hs1] at hF1
    rw [cwpSerializeMessage_eq m2 hs2] at hF2
    obtain rfl := Option.some.inj hF1
    obtain rfl := Option.some.inj hF2
    exact feedTwoCwp_split (headerByteForKey m1.message_type.value)
      (cwpPayload m1).length (headerByteForKey m2.message_type.value)
      (cwpPayload m2).length (cwpPayload m1) (cwpPayload m2) c
      (by rw [msgTypeOfByte_headerByte]; rfl) rfl hb1
      (by rw [msgTypeOfByte_headerByte]; rfl) rfl hb2

/-- Witness for claim C4 at two sample messages and split position 7. -/
theorem C4_framing_witness :
    feedTwoJson (((jsonBytes mA ++ [10]) ++ (jsonBytes mB ++ [10])).take 7)
        (((jsonBytes mA ++ [10]) ++ (jsonBytes mB ++ [10])).drop 7) =
      ([jsonBytes mA, jsonBytes mB], []) ∧
    feedTwoCwp
        ((((cwpSerializeMessage mA).getD []) ++
          ((cwpSerializeMessage mB).getD [])).take 7)
        ((((cwpSerializeMessage mA).getD []) ++
          ((cwpSerializeMessage mB).getD [])).drop 7) =
      ([(cwpSerializeMessage mA).getD [], (cwpSerializeMessage mB).getD []], []) := by
  constructor
  · exact (C4_framing mA mB 7).1 (jsonBytes mA) (jsonBytes mB) rfl rfl
  · exact (C4_framing mA mB 7).2 _ _ (by unfold CwpSerializable; decide)
      (by unfold CwpSerializable; decide) (by decide) (by decide)
      (by decide) (by decide)

/-- claim C5: in every state reachable through the registry operations (the
empty start, buffer registration, successful login, disconnect cleanup) the
two session maps are mutual inverses — `clients[s] = u` exactly when
`usernames[u] = s`, so each username is mapped from exactly one socket. -/
theorem C5_registry_bijection (st : ServerState) (h : ReachableState st) :
    RegistryInv st := by
  induction h with
  | init => intro s u; simp [lookupAL]
  | step hst hstep ih => exact regStep_preserves ih hstep

/-- Witness for claim C5: the invariant after a login from the fresh state. -/
theorem C5_registry_bijection_witness :
    RegistryInv (loginBind 1 (asciiOf "alice") ⟨[], [], []⟩) :=
  C5_registry_bijection _
    (ReachableState.step ReachableState.init
      (RegStep.login 1 (asciiOf "alice") rfl rfl))

/-- claim C6: `handle_fetch_request` treats an absent or zero `fetch_count`
as 10; with exactly two recipients it returns
`get_messages_between_users(u1, u2, fetch_count)`, and with no or one
recipient it returns `get_unread_messages` for the caller with that limit. -/
theorem C6_fetch_selection (message : ChatMessage) (db : DB) :
    (effectiveFetchCount none = 10 ∧ effectiveFetchCount (some 0) = 10) ∧
    (∀ u1 u2, message.recipients = some [u1, u2] →
      handle_fetch_request message db =
        get_messages_between_users u1 u2 (effectiveFetchCount message.fetch_count) db) ∧
    ((message.recipients = none ∨ message.recipients = some [] ∨
        (∃ u, message.recipients = some [u])) →
      handle_fetch_request message db =
        get_unread_messages message.username
          (some (effectiveFetchCount message.fetch_count)) db) := by
  refine ⟨⟨rfl, rfl⟩, ?_, ?_⟩
  · intro u1 u2 h
    simp only [handle_fetch_request, h]
  · rintro (h | h | ⟨u, h⟩) <;> simp only [handle_fetch_request, h]

/-- Witness for claim C6: a two-recipient FETCH with no `fetch_count` routes
to the conversation query with limit 10. -/
theorem C6_fetch_selection_witness :
    handle_fetch_request fetchReqC6 dbC3 =
      get_messages_between_users (asciiOf "alice") (asciiOf "bob") 10 dbC3 :=
  (C6_fetch_selection fetchReqC6 dbC3).2.1 (asciiOf "alice") (asciiOf "bob") rfl

/-- claim C7: a pre-auth request whose kind is neither LOGIN nor REGISTER is
answered with status ERROR and `SystemMessage.LOGIN_REQUIRED` ("Please login
or register first"), the session loop terminates, and the server state is
unchanged. -/
theorem C7_preauth_reject (mt : MessageType) (st : ServerState)
    (hl : mt ≠ MessageType.LOGIN) (hr : mt ≠ MessageType.REGISTER) :
    preAuthDispatch mt st =
      (st, some { status := Status.ERROR, message := LOGIN_REQUIRED,
                  data := none, unread_count := none }, true) := by
  rw [preAuthDispatch, if_neg]
  rintro (h | h)
  · exact hl h
  · exact hr h

/-- Witness for claim C7 at a CHAT request against the sample registry. -/
theorem C7_preauth_reject_witness :
    preAuthDispatch MessageType.CHAT stC10 =
      (stC10, some { status := Status.ERROR, message := LOGIN_REQUIRED,
                     data := none, unread_count := none }, true) :=
  C7_preauth_reject MessageType.CHAT stC10 (by decide) (by decide)

/-- claim C8: after `delete_user(u)` the store holds no message whose sender
or recipient is `u`, and no user row for `u`. -/
theorem C8_delete_user_cascade (username : List Nat) (db : DB) :
    (∀ m ∈ ((delete_user username db).1).messages,
        m.sender ≠ username ∧ m.recipient ≠ username) ∧
    (∀ u ∈ ((delete_user username db).1).users, u.username ≠ username) := by
  constructor
  · intro m hm
    simp only [delete_user] at hm
    rw [List.mem_filter] at hm
    have h2 := hm.2
    constructor
    · intro he; rw [he] at h2; simp at h2
    · intro he; rw [he] at h2; simp at h2
  · intro u hu
    simp only [delete_user] at hu
    rw [List.mem_filter] at hu
    have h2 := hu.2
    intro he; rw [he] at h2; simp at h2

/-- Witness for claim C8: the stored alice → bob message is gone after
deleting alice. -/
theorem C8_delete_user_cascade_witness :
    ({ id := 1, sender := asciiOf "alice", recipient := asciiOf "bob",
       content := asciiOf "x", timestamp := 5, message_type := MessageType.DM,
       read_status := false, delivered := false } : MessageRow) ∉
      ((delete_user (asciiOf "alice") dbC3).1).messages := by
  intro hm
  exact ((C8_delete_user_cascade (asciiOf "alice") dbC3).1 _ hm).1 rfl

/-- Counterexample to claim C9: `deserialize_message` DOES fail on a bare
5-byte frame with an unknown kind byte — the payload reads behind the header
raise (`struct.unpack` on too-few bytes), so `[255, 0, 0, 0, 0]` yields no
message at all, not a CHAT message. -/
theorem C9_counterexample :
    (msgTypeOfByte 255).isNone = true ∧
    cwpDeserializeMessage [255, 0, 0, 0, 0] = none := by
  decide

/-- claim C9 (amended): an unknown kind byte in front of an otherwise
well-formed frame body deserializes to the same message with
`message_type=CHAT` (the `REVERSE_MESSAGE_TYPES.get(..., "chat")` fallback);
dually, `serialize_message` encodes a type key missing from
`MESSAGE_TYPES` with the CHAT kind byte 5. -/
theorem C9_unknown_kind (m : ChatMessage) (b : Nat)
    (hs : CwpSerializable m) (hf : CwpFaithful m)
    (hb : msgTypeOfByte b = none) :
    cwpDeserializeMessage (b :: (beBytes 4 (cwpPayload m).length ++ cwpPayload m)) =
      some { m with message_type := MessageType.CHAT } ∧
    (∀ key, msgTypeIndexOfKey key = none → headerByteForKey key = 5) := by
  constructor
  · rw [cwpDeserialize_withHeader m b hs hf, hb]
    rfl
  · intro key h
    simp only [headerByteForKey, h]
    decide

/-- Witness for claim C9: kind byte 200 in front of a valid body decodes to
a CHAT message. -/
theorem C9_unknown_kind_witness :
    cwpDeserializeMessage (200 :: (beBytes 4 (cwpPayload mA).length ++ cwpPayload mA)) =
      some { mA with message_type := MessageType.CHAT } :=
  (C9_unknown_kind mA 200 (by unfold CwpSerializable; decide)
    (by unfold CwpFaithful; decide) (by decide)).1

/-- claim C10: `remove_client` on a socket absent from `clients` changes
none of the three registry maps and broadcasts no logout; consequently a
second `remove_client` on the same socket (any flag) leaves the state of the
first call unchanged and broadcasts nothing. -/
theorem C10_remove_client_frame (sock : Nat) (flag flag2 : Bool)
    (st : ServerState) :
    (lookupAL sock st.clients = none → remove_client sock flag st = (st, none)) ∧
    (remove_client sock flag2 (remove_client sock flag st).1).1 =
      (remove_client sock flag st).1 ∧
    (remove_client sock flag2 (remove_client sock flag st).1).2 = none := by
  have habs : ∀ (f : Bool) (s' : ServerState), lookupAL sock s'.clients = none →
      remove_client sock f s' = (s', none) := by
    intro f s' h
    simp [remove_client, h]
  refine ⟨habs flag st, ?_⟩
  cases hcl : lookupAL sock st.clients with
  | none => simp [habs flag st hcl, habs flag2 st hcl]
  | some u =>
    have hc := (remove_client_found sock flag st u hcl).1
    have h2 : lookupAL sock ((remove_client sock flag st).1).clients = none := by
      rw [hc]; exact lookupAL_removeKey_self _ _
    rw [habs flag2 _ h2]
    exact ⟨rfl, rfl⟩

/-- Witness for claim C10: removing an unknown socket 5 from the sample
registry is a no-op with no broadcast. -/
theorem C10_remove_client_frame_witness :
    remove_client 5 true stC10 = (stC10, none) :=
  (C10_remove_client_frame 5 true true stC10).1 (by decide)

end WireChat
